import Mathlib

/-!
# Verification of the rpg-tavern turn orchestrator and character-state engine

Shallow embedding of `src/backend/characters.py`, `src/backend/pipeline/segments.py`,
`src/backend/pipeline/extractors.py` and `src/backend/pipeline/core.py`.

Python values are modelled as follows: Python `int` becomes `Int`; Python strings
become Lean `String` (in this toolchain a `String` is a wrapper around `List Char`,
and all Python string primitives we need — `strip`, `lower`, `split("\n")`,
`"\n".join`, substring `in` — are re-implemented structurally below so that they
compute by kernel reduction, restricted to the ASCII behaviour the repository
relies on); Python dict "objects" with a fixed key set become structures; loosely
shaped JSON values become the inductive `Json`; Python exceptions become
`Except String`.
-/

namespace RpgTavern

/-! ## Python string primitives -/

/-- The whitespace set of Python's `str.strip()` / regex `\s` (ASCII part):
space, tab, newline, carriage return, vertical tab, form feed. -/
def pyIsSpace (c : Char) : Bool :=
  c = ' ' || c = '\t' || c = '\n' || c = '\r' || c = '\x0b' || c = '\x0c'

/-- Python `str.strip()` on a character list. -/
def stripList (l : List Char) : List Char :=
  ((l.dropWhile pyIsSpace).reverse.dropWhile pyIsSpace).reverse

/-- Python `str.strip()`. -/
def pyStrip (s : String) : String := ⟨stripList s.data⟩

/-- Python `str.lower()` (ASCII). -/
def pyLower (s : String) : String := ⟨s.data.map Char.toLower⟩

/-- `p` occurs at the start of `l` (used for Python `startswith` and substring search). -/
def startsWithList : List Char → List Char → Bool
  | [], _ => true
  | _ :: _, [] => false
  | a :: p, b :: l => a = b && startsWithList p l

/-- Python substring test `p in l` (empty `p` matches everything, as in Python). -/
def containsList (p : List Char) : List Char → Bool
  | [] => startsWithList p []
  | c :: t => startsWithList p (c :: t) || containsList p t

/-- Python `sub in s` on strings. -/
def pyInStr (sub s : String) : Bool := containsList sub.data s.data

/-- Python `s.split("\n")`: keeps empty pieces, `""` splits to `[""]`. -/
def splitNL : List Char → List (List Char)
  | [] => [[]]
  | '\n' :: rest => [] :: splitNL rest
  | c :: rest =>
    match splitNL rest with
    | [] => [[c]]
    | h :: t => (c :: h) :: t

/-- Python `"\n".join(pieces)`. -/
def joinNL (pieces : List (List Char)) : List Char :=
  List.intercalate ['\n'] pieces

/-- Python `template.format(label=label)` for the threshold templates: replaces
every occurrence of the placeholder `{label}`.  (The templates contain no other
format directives.) -/
def fmtLabel (label : String) : List Char → List Char
  | '{' :: 'l' :: 'a' :: 'b' :: 'e' :: 'l' :: '}' :: rest => label.data ++ fmtLabel label rest
  | c :: rest => c :: fmtLabel label rest
  | [] => []

/-- `template.format(label=label)` on strings. -/
def pyFormatLabel (template label : String) : String := ⟨fmtLabel label template.data⟩

/-! ## Character state data model (`backend/characters.py`) -/

/-- One mood/relationship state: `{"label": ..., "value": ...}`. -/
structure StateEntry where
  label : String
  value : Int
deriving DecidableEq, Repr

/-- The `states` dict of a character/persona: three category lists. -/
structure States where
  core : List StateEntry
  persistent : List StateEntry
  temporal : List StateEntry
deriving DecidableEq, Repr

/-- A character dict.  `chattiness` is always present in the model (Python's
`char.get("chattiness", 50)` default only fires for dicts missing the key). -/
structure Character where
  name : String
  slug : String
  nicknames : List String
  chattiness : Int
  states : States
  overflow_pending : Bool
deriving DecidableEq, Repr

/-- A persona dict — like a character but with `description` instead of `chattiness`. -/
structure Persona where
  name : String
  slug : String
  nicknames : List String
  description : String
  states : States
  overflow_pending : Bool
deriving DecidableEq, Repr

/-- `CATEGORY_LIMITS = {"core": 3, "persistent": 10, "temporal": 10}` -/
def CATEGORY_LIMITS : List (String × Nat) :=
  [("core", 3), ("persistent", 10), ("temporal", 10)]

/-- `CATEGORY_MAX_VALUES = {"core": 30, "persistent": 20, "temporal": None}` -/
def CATEGORY_MAX_VALUES : List (String × Option Int) :=
  [("core", some 30), ("persistent", some 20), ("temporal", none)]

/-- `TICK_RATES = {"core": 2, "persistent": 1, "temporal": -1}` -/
def TICK_RATES : List (String × Int) :=
  [("core", 2), ("persistent", 1), ("temporal", -1)]

/-- `THRESHOLD_LEVELS`: `(min_value, max_value, template_string)`, max inclusive,
`None` max meaning open-ended, `None` template meaning silent. -/
def THRESHOLD_LEVELS : List (Int × Option Int × Option String) :=
  [ (0, some 5, none),
    (6, some 10, some "feels a subconscious nudge related to {label}"),
    (11, some 15, some "{label} is manifest in their body language"),
    (16, some 20, some "{label} dominates their current priorities"),
    (21, some 30, some "{label} is a core truth they would die for") ]

/-- The `for min_v, max_v, template in THRESHOLD_LEVELS` loop of `describe_state`.
(In the `max_v is None` branch a `None` template would be a Python crash; the
actual table never pairs `None` max with `None` template.) -/
def describeLoop (label : String) (value : Int) : List (Int × Option Int × Option String) → Option String
  | [] => none
  | (min_v, max_v, template) :: rest =>
    match max_v with
    | none =>
      if min_v ≤ value then template.map (fun t => pyFormatLabel t label)
      else describeLoop label value rest
    | some mx =>
      if min_v ≤ value ∧ value ≤ mx then
        match template with
        | none => none
        | some t => some (pyFormatLabel t label)
      else describeLoop label value rest

/-- `describe_state(label, value)`: threshold description, or `None` if silent. -/
def describe_state (label : String) (value : Int) : Option String :=
  describeLoop label value THRESHOLD_LEVELS

/-- The per-category value-update loop of `tick_character`: add the rate, clamp to
the cap when one exists, keep the state only when the new value is `> 0`. -/
def tickPass (rate : Int) (cap : Option Int) : List StateEntry → List StateEntry
  | [] => []
  | s :: rest =>
    let v := s.value + rate
    let v := match cap with
      | some c => if v > c then c else v
      | none => v
    if v > 0 then ⟨s.label, v⟩ :: tickPass rate cap rest
    else tickPass rate cap rest

/-- The promotion loop of `tick_character`: walk the (already updated) temporal
list; a state with `value >= 20` is appended to `persistent` while `persistent`
has fewer than `CATEGORY_LIMITS["persistent"]` entries, otherwise it stays in
the remaining temporal list.  Returns (new persistent, remaining temporal). -/
def promoteLoop (pers : List StateEntry) : List StateEntry → List StateEntry × List StateEntry
  | [] => (pers, [])
  | s :: rest =>
    if s.value ≥ 20 ∧ pers.length < ((CATEGORY_LIMITS.lookup "persistent").getD 0 : Nat) then
      promoteLoop (pers ++ [s]) rest
    else
      let (p, t) := promoteLoop pers rest
      (p, s :: t)

/-- Category access `states[category]` for the overflow check. -/
def getCategory (s : States) (category : String) : List StateEntry :=
  if category = "core" then s.core
  else if category = "persistent" then s.persistent
  else if category = "temporal" then s.temporal
  else []

/-- `tick_character`: apply tick rates, remove zeroed states, promote
temporal → persistent, recompute `overflow_pending`. -/
def tick_character (c : Character) : Character :=
  let core' := tickPass ((TICK_RATES.lookup "core").getD 0)
    ((CATEGORY_MAX_VALUES.lookup "core").getD none) c.states.core
  let pers' := tickPass ((TICK_RATES.lookup "persistent").getD 0)
    ((CATEGORY_MAX_VALUES.lookup "persistent").getD none) c.states.persistent
  let temp' := tickPass ((TICK_RATES.lookup "temporal").getD 0)
    ((CATEGORY_MAX_VALUES.lookup "temporal").getD none) c.states.temporal
  let (pers'', temp'') := promoteLoop pers' temp'
  let states' : States := ⟨core', pers'', temp''⟩
  let overflow := CATEGORY_LIMITS.any (fun cl => (getCategory states' cl.1).length > cl.2)
  { c with states := states', overflow_pending := overflow }

/-- `tick_character` for personas (`core.py` ticks the active persona with the
same function; dicts are duck-typed, so the model duplicates it at `Persona`). -/
def tick_persona (p : Persona) : Persona :=
  let core' := tickPass ((TICK_RATES.lookup "core").getD 0)
    ((CATEGORY_MAX_VALUES.lookup "core").getD none) p.states.core
  let pers' := tickPass ((TICK_RATES.lookup "persistent").getD 0)
    ((CATEGORY_MAX_VALUES.lookup "persistent").getD none) p.states.persistent
  let temp' := tickPass ((TICK_RATES.lookup "temporal").getD 0)
    ((CATEGORY_MAX_VALUES.lookup "temporal").getD none) p.states.temporal
  let (pers'', temp'') := promoteLoop pers' temp'
  let states' : States := ⟨core', pers'', temp''⟩
  let overflow := CATEGORY_LIMITS.any (fun cl => (getCategory states' cl.1).length > cl.2)
  { p with states := states', overflow_pending := overflow }

/-! ## Activation (`activate_characters`) -/

/-- The name test of `activate_characters`: any of the character's lower-cased
names (primary name + nicknames) occurs as a substring of `text`. -/
def nameMatches (c : Character) (text : String) : Bool :=
  (pyLower c.name :: c.nicknames.map pyLower).any (fun n => pyInStr n text)

/-- The `for char in characters` loop of `activate_characters`.  Randomness is
modelled by the oracle `rng : Nat → Int` giving the successive results of
`random.randint(0, 99)`; `k` is the index of the next unconsumed draw.  A draw
is consumed only in the `elif` branch, exactly as in the source. -/
def activateGo (text : String) (rng : Nat → Int) : List Character → Nat → List Character × Nat
  | [], k => ([], k)
  | c :: rest, k =>
    if nameMatches c text then
      let (a, k') := activateGo text rng rest k
      (c :: a, k')
    else if rng k < c.chattiness then
      let (a, k') := activateGo text rng rest (k + 1)
      (c :: a, k')
    else
      activateGo text rng rest (k + 1)

/-- `activate_characters(characters, narration, player_message)`.  Returns the
active characters and the index of the next unconsumed random draw. -/
def activate_characters (characters : List Character) (narration player_message : String)
    (rng : Nat → Int) (k : Nat) : List Character × Nat :=
  activateGo (pyLower (narration ++ " " ++ player_message)) rng characters k

/-- Restatement of the activation rule in the spec's words (§4.2): the character
at roster position `i` is active iff one of its names occurs in the lower-cased
`narration + " " + player_message`, or else its dedicated uniform draw — the one
at index `k` + (number of earlier roster characters that did not name-match) —
is `< chattiness`.  Roster order is preserved by construction. -/
def activateSpec (characters : List Character) (narration player_message : String)
    (rng : Nat → Int) (k : Nat) : List Character :=
  let text := pyLower (narration ++ " " ++ player_message)
  (characters.enum.filter (fun ic =>
    nameMatches ic.2 text ||
      decide (rng (k + ((characters.take ic.1).filter (fun c => !(nameMatches c text))).length)
        < ic.2.chattiness))).map (fun ic => ic.2)

/-! ## Output segmenter (`backend/pipeline/segments.py`) -/

/-- A parsed segment. -/
inductive Segment where
  | narration (text : String)
  | dialog (character : String) (emotion : String) (text : String)
deriving DecidableEq, Repr

/-- The regex `^([A-Za-z][\w\s]*?)\(([^)]+)\):\s*(.+)$` applied with `re.match`
to a stripped line, returning the three captured groups.

Because the lazy name group `[\w\s]*?` can only extend over word/space
characters, the `\(` that closes it is necessarily the first character of the
line (after the leading letter) outside `[\w\s]`; the emotion group `[^)]+`
then runs to the first `)`; `\s*(.+)$` makes the text group start at the first
non-`\s` character after `):` (the line is pre-stripped, so the tail cannot be
all whitespace unless it is empty, in which case `(.+)` fails). -/
def matchDialog (line : List Char) : Option (List Char × List Char × List Char) :=
  match line with
  | [] => none
  | c0 :: rest =>
    if ('A' ≤ c0 ∧ c0 ≤ 'Z') ∨ ('a' ≤ c0 ∧ c0 ≤ 'z') then
      let isWordSpace := fun c => c.isAlpha || c.isDigit || c = '_' || pyIsSpace c
      let nameTail := rest.takeWhile isWordSpace
      match rest.dropWhile isWordSpace with
      | '(' :: afterParen =>
        let emotion := afterParen.takeWhile (fun c => c ≠ ')')
        if emotion = [] then none
        else
          match afterParen.dropWhile (fun c => c ≠ ')') with
          | ')' :: ':' :: tail =>
            let text := tail.dropWhile pyIsSpace
            if text = [] then none
            else some (c0 :: nameTail, emotion, text)
          | _ => none
      | _ => none
    else none

/-- The `name_lookup` dict built by `parse_narrator_output`: maps the lower-cased
name to its canonical casing; a later duplicate overwrites an earlier one. -/
def nameLookup (known_names : List String) (key : String) : Option String :=
  (known_names.filter (fun n => pyLower n = key)).getLast?

/-- Flush the buffered narration lines: `"\n".join(current_narration).strip()`. -/
def flushNarration (current : List String) : List Segment :=
  if current = [] then []
  else [Segment.narration ⟨stripList (joinNL (current.map String.data))⟩]

/-- The line loop of `parse_narrator_output`: `lines` are the pieces of
`text.split("\n")`, `current` is the buffered narration (`current_narration`). -/
def parseLinesLoop (known_names : List String) : List String → List String → List Segment
  | [], current => flushNarration current
  | line :: rest, current =>
    let stripped := pyStrip line
    if stripped = "" then
      parseLinesLoop known_names rest (if current ≠ [] then current ++ [""] else current)
    else
      match matchDialog stripped.data with
      | some (rawName, emotion, txt) =>
        match nameLookup known_names (pyLower (pyStrip ⟨rawName⟩)) with
        | some canonical =>
          flushNarration current ++
            (Segment.dialog canonical (pyStrip ⟨emotion⟩) (pyStrip ⟨txt⟩) ::
              parseLinesLoop known_names rest [])
        | none => parseLinesLoop known_names rest (current ++ [stripped])
      | none => parseLinesLoop known_names rest (current ++ [stripped])

/-- Keep a segment iff it is a dialog or its text strips to non-empty
(`s.get("text", "").strip() or s["type"] == "dialog"`). -/
def keepSegment : Segment → Bool
  | Segment.narration t => pyStrip t ≠ ""
  | Segment.dialog _ _ _ => true

/-- `parse_narrator_output(text, known_names)`. -/
def parse_narrator_output (text : String) (known_names : List String) : List Segment :=
  if pyStrip text = "" then [Segment.narration ""]
  else
    let segments := parseLinesLoop known_names ((splitNL text.data).map (⟨·⟩)) []
    let segments := segments.filter keepSegment
    if segments = [] then [Segment.narration ""] else segments

/-- `segments_to_text(segments)`: inverse formatting, newline-joined. -/
def segments_to_text (segments : List Segment) : String :=
  ⟨joinNL (segments.map (fun s =>
    match s with
    | Segment.dialog c e t => (c ++ "(" ++ e ++ "): " ++ t).data
    | Segment.narration t => t.data))⟩

/-! ## JSON values and Python dynamic operations (`backend/pipeline/extractors.py`)

JSON numbers are modelled as integers (every value the extractor claims exercise
is integral; Python would also accept floats and truncate them with `int()`).
Python `bool` is a subclass of `int`, so `isinstance(value, (int, float))`
accepts booleans — the model mirrors that. -/

inductive Json where
  | null
  | bool (b : Bool)
  | num (n : Int)
  | str (s : String)
  | arr (xs : List Json)
  | obj (kvs : List (String × Json))

/-- Python `dict.get(key, default)` on a decoded JSON object. -/
def jgetD (kvs : List (String × Json)) (key : String) (default : Json) : Json :=
  (kvs.lookup key).getD default

/-- Python truthiness of a JSON value. -/
def pyTruthy : Json → Bool
  | Json.null => false
  | Json.bool b => b
  | Json.num n => n ≠ 0
  | Json.str s => s ≠ ""
  | Json.arr xs => !xs.isEmpty
  | Json.obj kvs => !kvs.isEmpty

/-- Python `x == "needle"` for a JSON value (only equal strings compare equal). -/
def jsonEqStr (x : Json) (needle : String) : Bool :=
  match x with
  | Json.str s => s = needle
  | _ => false

/-- Python `"needle" in x`: key test on dicts, substring on strings, membership
on lists; `TypeError` otherwise. -/
def pyInContains (needle : String) : Json → Except String Bool
  | Json.obj kvs => .ok (kvs.any (fun kv => kv.1 = needle))
  | Json.str s => .ok (pyInStr needle s)
  | Json.arr xs => .ok (xs.any (fun x => jsonEqStr x needle))
  | _ => .error "TypeError: argument is not iterable"

/-- Python `for x in v`: lists yield elements, strings yield one-character
strings, dicts yield their keys; `TypeError` otherwise. -/
def pyIterate : Json → Except String (List Json)
  | Json.arr xs => .ok xs
  | Json.str s => .ok (s.data.map (fun c => Json.str ⟨[c]⟩))
  | Json.obj kvs => .ok (kvs.map (fun kv => Json.str kv.1))
  | _ => .error "TypeError: object is not iterable"

/-- `isinstance(value, (int, float))` (booleans count, Python subclassing). -/
def isNumeric : Json → Bool
  | Json.num _ => true
  | Json.bool _ => true
  | _ => false

/-- Python `int(value)` for a numeric JSON value. -/
def jsonToInt : Json → Int
  | Json.num n => n
  | Json.bool b => if b then 1 else 0
  | _ => 0

/-- `_parse_json_output(text)`: strip an optional markdown fence, then decode.
`loads` is the oracle standing for Python's `json.loads` (`none` =
`JSONDecodeError`); a decoded non-object becomes `none`. -/
def parse_json_output (loads : String → Option Json) (text : String) : Option Json :=
  let cleaned := pyStrip text
  let cleaned : String :=
    if startsWithList "```".data cleaned.data then
      ⟨joinNL (((splitNL cleaned.data).drop 1).filter
        (fun l => ¬ startsWithList "```".data (stripList l)))⟩
    else cleaned
  match loads cleaned with
  | some (Json.obj kvs) => some (Json.obj kvs)
  | _ => none

/-- Write access `character["states"][category] = l` for the three category names. -/
def setCategory (s : States) (category : String) (l : List StateEntry) : States :=
  if category = "core" then { s with core := l }
  else if category = "persistent" then { s with persistent := l }
  else if category = "temporal" then { s with temporal := l }
  else s

/-- The `for state in character["states"][category]` search: overwrite the value
of the first state whose lower-cased label equals the update's lower-cased
label.  Returns the updated list and the `found` flag.  A non-string `label`
has no `.lower()` — `AttributeError` as soon as one comparison runs. -/
def updateStateLoop (label : Json) (v : Int) : List StateEntry → Except String (List StateEntry × Bool)
  | [] => .ok ([], false)
  | s :: rest =>
    match label with
    | Json.str ls =>
      if pyLower s.label = pyLower ls then .ok ({ s with value := v } :: rest, true)
      else do
        let (r, f) ← updateStateLoop label v rest
        .ok (s :: r, f)
    | _ => .error "AttributeError: label has no attribute lower"

/-- One iteration of the `for update in updates` loop: validate category, label
and value; clamp to the category ceiling; overwrite or append.  (In the
append branch Python would happily append a non-string truthy label as a
corrupt entry; the model rejects that unreachable-for-our-claims path.) -/
def applyOneUpdate (states : States) (update : Json) : Except String States :=
  match update with
  | Json.obj kvs =>
    let category := jgetD kvs "category" Json.null
    let catName? : Option String :=
      match category with
      | Json.str s => if s = "core" ∨ s = "persistent" ∨ s = "temporal" then some s else none
      | _ => none
    match catName? with
    | none => .ok states
    | some cat =>
      let label := jgetD kvs "label" (Json.str "")
      let value := jgetD kvs "value" (Json.num 0)
      if ¬ pyTruthy label ∨ ¬ isNumeric value then .ok states
      else
        let v := jsonToInt value
        let v := match (CATEGORY_MAX_VALUES.lookup cat).getD none with
          | some c => if v > c then c else v
          | none => v
        do
          let (l', found) ← updateStateLoop label v (getCategory states cat)
          if found then .ok (setCategory states cat l')
          else
            match label with
            | Json.str ls => .ok (setCategory states cat (getCategory states cat ++ [⟨ls, v⟩]))
            | _ => .error "model: non-string label appended"
  | _ => .error "AttributeError: update has no attribute get"

/-- One iteration of the `for change in state_changes` loop: accept both the
flat format and the `{"updates": [...]}` wrapper, then apply each update. -/
def processChange (states : States) (change : Json) : Except String States := do
  let hasUpdates ← pyInContains "updates" change
  let updatesJ ←
    if hasUpdates then
      match change with
      | Json.obj kvs => Except.ok (jgetD kvs "updates" (Json.arr [change]))
      | _ => Except.error "AttributeError: change has no attribute get"
    else Except.ok (Json.arr [change])
  let updates ← pyIterate updatesJ
  updates.foldlM applyOneUpdate states

/-- Shared body of `apply_character_extractor` / `apply_persona_extractor` after
JSON parsing, acting on the `states` dict.  The returned flag says whether the
function fell through to its save call. -/
def applyStateChangesData (states : States) (data : Json) : Except String (States × Bool) :=
  if ¬ pyTruthy data then .ok (states, false)
  else
    match data with
    | Json.obj kvs =>
      let state_changes := jgetD kvs "state_changes" (Json.arr [])
      if ¬ pyTruthy state_changes then .ok (states, false)
      else do
        let changes ← pyIterate state_changes
        let states' ← changes.foldlM processChange states
        .ok (states', true)
    | _ => .ok (states, false)

/-- `apply_character_extractor(slug, character, text, characters)`: parse the
extractor output and apply state changes; the flag records whether
`storage.save_characters` was reached. -/
def apply_character_extractor (loads : String → Option Json) (character : Character)
    (text : String) : Except String (Character × Bool) :=
  match parse_json_output loads text with
  | none => .ok (character, false)
  | some data => do
    let (states', saved) ← applyStateChangesData character.states data
    .ok ({ character with states := states' }, saved)

/-- The copy-on-write scan of `apply_persona_extractor` / `run_pipeline`:
replace the first adventure-local persona with a matching slug, else append. -/
def cowReplace (p : Persona) : List Persona → List Persona × Bool
  | [] => ([], false)
  | lp :: rest =>
    if lp.slug = p.slug then (p :: rest, true)
    else
      let (r, f) := cowReplace p rest
      (lp :: r, f)

/-- Copy-on-write save of a persona into the adventure-local persona list. -/
def saveAdventurePersona (locals : List Persona) (p : Persona) : List Persona :=
  let (replaced, found) := cowReplace p locals
  if found then replaced else locals ++ [p]

/-- `apply_persona_extractor(slug, persona, text)`: like the character applier,
then always (when it reaches its tail) copy-on-write-saves the persona into
the adventure-local list.  Returns (persona, new local list, saved flag). -/
def apply_persona_extractor (loads : String → Option Json) (persona : Persona)
    (text : String) (local_personas : List Persona) :
    Except String (Persona × List Persona × Bool) :=
  match parse_json_output loads text with
  | none => .ok (persona, local_personas, false)
  | some data =>
    if ¬ pyTruthy data then .ok (persona, local_personas, false)
    else
      match data with
      | Json.obj kvs =>
        let state_changes := jgetD kvs "state_changes" (Json.arr [])
        if ¬ pyTruthy state_changes then .ok (persona, local_personas, false)
        else do
          let changes ← pyIterate state_changes
          let states' ← changes.foldlM processChange persona.states
          let persona' := { persona with states := states' }
          .ok (persona', saveAdventurePersona local_personas persona', true)
      | _ => .ok (persona, local_personas, false)

/-- A persisted lorebook entry.  `content` and `keywords` are copied verbatim
from the (untrusted) extractor JSON, so they stay `Json` in the model. -/
structure LoreEntry where
  title : String
  content : Json
  keywords : Json

/-- The `for entry in new_entries` loop of `apply_lorebook_extractor`,
threading the lorebook list and the `existing_titles` set (as lowered titles). -/
def lorebookLoop : List Json → List LoreEntry → List String → Except String (List LoreEntry)
  | [], lb, _ => .ok lb
  | entry :: rest, lb, titles =>
    match entry with
    | Json.obj ekvs =>
      let title := jgetD ekvs "title" (Json.str "")
      if ¬ pyTruthy title then lorebookLoop rest lb titles
      else
        match title with
        | Json.str ts =>
          if titles.contains (pyLower ts) then lorebookLoop rest lb titles
          else
            lorebookLoop rest
              (lb ++ [⟨ts, jgetD ekvs "content" (Json.str ""), jgetD ekvs "keywords" (Json.arr [])⟩])
              (titles ++ [pyLower ts])
        | _ => .error "AttributeError: title has no attribute lower"
    | _ => .error "AttributeError: entry has no attribute get"

/-- `apply_lorebook_extractor(slug, text)`: parse and append new entries, with
case-insensitive title dedup against the existing lorebook; first-seen title
wins.  The flag records whether `storage.save_lorebook` was reached. -/
def apply_lorebook_extractor (loads : String → Option Json) (lorebook : List LoreEntry)
    (text : String) : Except String (List LoreEntry × Bool) :=
  match parse_json_output loads text with
  | none => .ok (lorebook, false)
  | some data =>
    match data with
    | Json.obj kvs =>
      let new_entries := jgetD kvs "lorebook_entries" (Json.arr [])
      if ¬ pyTruthy new_entries then .ok (lorebook, false)
      else do
        let entries ← pyIterate new_entries
        let lb' ← lorebookLoop entries lorebook (lorebook.map (fun e => pyLower e.title))
        .ok (lb', true)
    | _ => .ok (lorebook, false)

/-! ## Spec-side definitions

These definitions restate parts of the specification in its own words; the
claim theorems compare them with the source-derived definitions above. -/

/-- All labels carried by a character, across the three categories. -/
def charLabels (c : Character) : List String :=
  (c.states.core ++ c.states.persistent ++ c.states.temporal).map StateEntry.label

/-- A line both shaped like dialog and carrying a recognized name (the only kind
of line `parse_narrator_output` turns into a dialog segment). -/
def lineIsDialogRecognized (names : List String) (line : List Char) : Bool :=
  match matchDialog (stripList line) with
  | some (nm, _, _) => (nameLookup names (pyLower (pyStrip ⟨nm⟩))).isSome
  | none => false

/-- Spec §4.4: clamp a value to the category's ceiling when one exists. -/
def specClamp (cat : String) (v : Int) : Int :=
  match (CATEGORY_MAX_VALUES.lookup cat).getD none with
  | some c => min v c
  | none => v

/-- Spec §4.4: overwrite the value of the (first) state with a case-insensitive
matching label, else append a new state. -/
def specOverwrite (l : List StateEntry) (label : String) (v : Int) : List StateEntry :=
  match l.findIdx? (fun s => pyLower s.label = pyLower label) with
  | some i => l.set i { ((l.get? i).getD ⟨label, v⟩) with value := v }
  | none => l ++ [⟨label, v⟩]

/-- Spec §4.4: apply one validated `(category, label, value)` update. -/
def specApplyUpdate (states : States) (cat label : String) (v : Int) : States :=
  setCategory states cat (specOverwrite (getCategory states cat) label (specClamp cat v))

/-- Spec §4.4 validation: an update applies iff its category is one of the three
names, its label is non-empty (truthy), and its value is numeric; the value is
then coerced to an integer.  Returns the validated triple, or `none` for an
update that is skipped. -/
def validTriple (u : Json) : Option (String × String × Int) :=
  match u with
  | Json.obj kvs =>
    match jgetD kvs "category" Json.null with
    | Json.str c =>
      if c = "core" ∨ c = "persistent" ∨ c = "temporal" then
        let label := jgetD kvs "label" (Json.str "")
        let value := jgetD kvs "value" (Json.num 0)
        if pyTruthy label ∧ isNumeric value then
          match label with
          | Json.str ls => some (c, ls, jsonToInt value)
          | _ => none
        else none
      else none
    | _ => none
  | _ => none

/-- Spec §9: normalize flat and `updates`-wrapped items into one update list. -/
def normChanges (changes : List Json) : List Json :=
  changes.flatMap (fun ch =>
    match ch with
    | Json.obj kvs =>
      if kvs.any (fun kv => kv.1 = "updates") then
        match jgetD kvs "updates" (Json.arr [Json.obj kvs]) with
        | Json.arr xs => xs
        | _ => []
      else [Json.obj kvs]
    | _ => [])

/-- Spec §4.4: fold a list of updates over a `states` dict, applying the valid
ones in order and skipping the rest. -/
def specApplyAll (states : States) (updates : List Json) : States :=
  (updates.filterMap validTriple).foldl
    (fun st t => specApplyUpdate st t.1 t.2.1 t.2.2) states

/-- An update item whose shape cannot crash the applier: a JSON object whose
`label` field (when truthy) is a string. -/
def updateOk (u : Json) : Bool :=
  match u with
  | Json.obj kvs =>
    match jgetD kvs "label" (Json.str "") with
    | Json.str _ => true
    | l => !pyTruthy l
  | _ => false

/-- A `state_changes` item whose shape cannot crash the applier: a JSON object,
and if it carries an `updates` key that key holds a list of `updateOk` items,
else the object itself is `updateOk`. -/
def changeOk (ch : Json) : Bool :=
  match ch with
  | Json.obj kvs =>
    if kvs.any (fun kv => kv.1 = "updates") then
      match jgetD kvs "updates" (Json.arr [Json.obj kvs]) with
      | Json.arr xs => xs.all updateOk
      | _ => false
    else updateOk (Json.obj kvs)
  | _ => false

/-! ## Turn orchestrator (`backend/pipeline/core.py`)

External effects are oracles: `gen k` is the output of the `k`-th `llm.generate`
call, `ren k` tells whether the `k`-th `render_prompt` call succeeds (its string
result only feeds prompts, which never influence control flow), `loads` stands
for `json.loads`, and `rng k` is the `k`-th `random.randint(0, 99)` draw.
Prompt-context construction (`build_context`, `character_prompt_context`,
lorebook matching, `enrich_states`) only affects prompt strings, never control
flow, and is therefore not threaded through the model.  Python exceptions set
the `err` field, which freezes the remaining phases, mirroring a raise that
propagates out of `run_pipeline`. -/

/-- One LLM connection dict. -/
structure Connection where
  name : String
  provider_url : String
  api_key : String
deriving DecidableEq, Repr

/-- One adventure-local story-role entry `{connection, prompt}`. -/
structure Role where
  connection : String
  prompt : String
deriving DecidableEq, Repr

/-- The adventure-local `story_roles` dict.  It maps role names to `Role` dicts
and additionally holds the scalar `max_rounds` key; the model splits the two
(Python's `isinstance(role, dict)` guard in `_resolve_connection` exists
precisely because of this mixed dict). -/
structure StoryRoles where
  roles : List (String × Role)
  max_rounds : Option Nat
deriving DecidableEq, Repr

/-- The global config: connection catalog and global role → connection map. -/
structure Config where
  llm_connections : List Connection
  story_roles : List (String × String)
deriving DecidableEq, Repr

/-- The fields of the adventure record that `run_pipeline` reads. -/
structure Adventure where
  player_name : String
  active_persona : String
deriving DecidableEq, Repr

/-- `_resolve_connection(config, story_roles, role_name)`. -/
def resolve_connection (config : Config) (story_roles : StoryRoles) (role_name : String) :
    Option Connection :=
  let conn_name := ((story_roles.roles.lookup role_name).map Role.connection).getD ""
  let conn_name := if conn_name = "" then (config.story_roles.lookup role_name).getD "" else conn_name
  if conn_name = "" then none
  else config.llm_connections.find? (fun c => c.name = conn_name)

/-- A message appended by the turn (the `ts` timestamp field is dropped). -/
inductive Message where
  | player (text : String)
  | narrator (text : String)
  | dialog (character : String) (emotion : String) (text : String)
  | intention (character : String) (text : String)
deriving DecidableEq, Repr

/-- `_segments_to_messages`: dialogs always, narrations only when their text
strips to non-empty. -/
def segmentsToMessages (segments : List Segment) : List Message :=
  segments.filterMap (fun s =>
    match s with
    | Segment.dialog c e t => some (Message.dialog c e t)
    | Segment.narration t => if pyStrip t ≠ "" then some (Message.narrator t) else none)

/-- `"\n\n".join(parts)`. -/
def joinDD (parts : List String) : String :=
  ⟨List.intercalate "\n\n".data (parts.map String.data)⟩

/-- The kind of each issued LLM call. -/
inductive LlmCall where
  | narratorCall
  | intentionCall
  | extractorCall
  | personaExtractorCall
  | lorebookCall
deriving DecidableEq, Repr

/-- Which calls each part of the turn issued.  `rounds` has one entry per round
that actually started (i.e. passed the activation check). -/
structure PipeTrace where
  phase1 : List LlmCall
  phase2 : List LlmCall
  phase3 : List LlmCall
  rounds : List (List LlmCall)
  lorebook : List LlmCall
deriving DecidableEq, Repr

/-- The persisted-storage collaborators touched by one turn. -/
structure Store where
  merged_personas : List Persona
  adventure_personas : List Persona
  lorebook : List LoreEntry
  saved_characters : Option (List Character)
  appended_messages : List Message

/-- The oracles standing for external effects. -/
structure Oracles where
  gen : Nat → String
  ren : Nat → Bool
  loads : String → Option Json
  rng : Nat → Int

/-- The mutable turn state threaded through the phases. -/
structure PipeSt where
  characters : List Character
  active_persona : Option Persona
  store : Store
  messages : List Message
  narration_parts : List String
  round_all_narrations : List String
  genK : Nat
  renK : Nat
  rngK : Nat
  trace : PipeTrace
  err : Option String

/-- Static per-turn data (resolved once before the phases). -/
structure PipeEnv where
  o : Oracles
  story_roles : StoryRoles
  narrator_conn : Connection
  intention_conn : Option Connection
  extractor_conn : Option Connection
  known_names : List String
  player_message : String
  narrator_tpl : String

/-- Prompt text of a story role, `story_roles.get(name, {}).get("prompt", "")`. -/
def rolePrompt (story_roles : StoryRoles) (name : String) : String :=
  ((story_roles.roles.lookup name).map Role.prompt).getD ""

/-- `activate_characters` as called by the round loop, returning roster
*positions* (standing for Python's references into the mutable roster list). -/
def activateIdxGo (text : String) (rng : Nat → Int) :
    List (Nat × Character) → Nat → List Nat × Nat
  | [], k => ([], k)
  | (i, c) :: rest, k =>
    if nameMatches c text then
      let (a, k') := activateIdxGo text rng rest k
      (i :: a, k')
    else if rng k < c.chattiness then
      let (a, k') := activateIdxGo text rng rest (k + 1)
      (i :: a, k')
    else
      activateIdxGo text rng rest (k + 1)

/-- Replace the roster entry at position `i` (Python mutates the dict in place). -/
def setChar (characters : List Character) (i : Nat) (c : Character) : List Character :=
  characters.set i c

/-- Phase 2: the character extractor for every character named in the phase-1
narration.  `done` are the already-visited roster entries. -/
def phase2Go (env : PipeEnv) (tpl : String) (nsfLower : String) :
    List Character → List Character → PipeSt → PipeSt
  | done, [], st => { st with characters := done }
  | done, c :: rest, st =>
    if st.err.isSome then { st with characters := done ++ c :: rest }
    else if (pyLower c.name :: c.nicknames.map pyLower).any (fun n => pyInStr n nsfLower) then
      if env.o.ren st.renK then
        let extText := env.o.gen st.genK
        let st := { st with renK := st.renK + 1, genK := st.genK + 1 }
        let st := { st with trace := { st.trace with phase2 := st.trace.phase2 ++ [LlmCall.extractorCall] } }
        match apply_character_extractor env.o.loads c extText with
        | Except.error e => { st with err := some e, characters := done ++ c :: rest }
        | Except.ok (c', saved) =>
          let st := if saved then
              { st with store := { st.store with saved_characters := some (done ++ c' :: rest) } }
            else st
          phase2Go env tpl nsfLower (done ++ [c']) rest st
      else
        -- render_prompt raised PromptError: continue with the next character
        phase2Go env tpl nsfLower (done ++ [c]) rest { st with renK := st.renK + 1 }
    else
      phase2Go env tpl nsfLower (done ++ [c]) rest st

/-- Phase 3: the persona extractor for the player resolution. -/
def phase3Persona (env : PipeEnv) (st : PipeSt) : PipeSt :=
  if st.err.isSome then st
  else
    let nsf := joinDD st.narration_parts
    match st.active_persona with
    | none => st
    | some p =>
      if env.extractor_conn.isSome ∧ nsf ≠ "" then
        let tpl := rolePrompt env.story_roles "extractor"
        if tpl ≠ "" then
          if (pyLower p.name :: p.nicknames.map pyLower).any
              (fun n => pyInStr n (pyLower nsf)) then
            if env.o.ren st.renK then
              let extText := env.o.gen st.genK
              let st := { st with renK := st.renK + 1, genK := st.genK + 1 }
              let st := { st with trace := { st.trace with phase3 := st.trace.phase3 ++ [LlmCall.personaExtractorCall] } }
              match apply_persona_extractor env.o.loads p extText st.store.adventure_personas with
              | Except.error e => { st with err := some e }
              | Except.ok (p', locals', _) =>
                let st := { st with active_persona := some p' }
                { st with store := { st.store with adventure_personas := locals' } }
            else
              -- PromptError caught: pass
              { st with renK := st.renK + 1 }
          else st
        else st
      else st

/-- The character-extractor step inside one round (the `if extractor_conn:`
block after a resolution).  The returned flag is false when Python `continue`d
to the next active character (render failure), skipping the persona extractor. -/
def roundCharExtractor (env : PipeEnv) (i : Nat) (char : Character) (st : PipeSt)
    (calls : List LlmCall) : PipeSt × List LlmCall × Bool :=
  if env.extractor_conn.isSome then
    let extTpl := rolePrompt env.story_roles "extractor"
    if extTpl ≠ "" then
      if ¬ env.o.ren st.renK then
        ({ st with renK := st.renK + 1 }, calls, false)  -- PromptError: continue
      else
        let extText := env.o.gen st.genK
        let st := { st with renK := st.renK + 1, genK := st.genK + 1 }
        let calls := calls ++ [LlmCall.extractorCall]
        match apply_character_extractor env.o.loads char extText with
        | Except.error e => ({ st with err := some e }, calls, true)
        | Except.ok (c', saved) =>
          let chars' := setChar st.characters i c'
          let st := { st with characters := chars' }
          let st := if saved then
              { st with store := { st.store with saved_characters := some chars' } }
            else st
          (st, calls, true)
    else (st, calls, true)
  else (st, calls, true)

/-- The persona-extractor step inside one round. -/
def roundPersonaExtractor (env : PipeEnv) (resolutionPlain : String) (st : PipeSt)
    (calls : List LlmCall) : PipeSt × List LlmCall :=
  match st.active_persona with
  | none => (st, calls)
  | some p =>
    if env.extractor_conn.isSome then
      let pTpl := rolePrompt env.story_roles "extractor"
      if pTpl ≠ "" then
        if (pyLower p.name :: p.nicknames.map pyLower).any
            (fun n => pyInStr n (pyLower resolutionPlain)) then
          if env.o.ren st.renK then
            let pText := env.o.gen st.genK
            let st := { st with renK := st.renK + 1, genK := st.genK + 1 }
            let calls := calls ++ [LlmCall.personaExtractorCall]
            match apply_persona_extractor env.o.loads p pText st.store.adventure_personas with
            | Except.error e => ({ st with err := some e }, calls)
            | Except.ok (p', locals', _) =>
              let st := { st with active_persona := some p' }
              ({ st with store := { st.store with adventure_personas := locals' } }, calls)
          else ({ st with renK := st.renK + 1 }, calls)  -- PromptError: pass
        else (st, calls)
      else (st, calls)
    else (st, calls)

/-- The per-character body of one round (the `for char in active_chars` loop).
Returns the updated state plus this round's accumulated trace, narration parts
and `any_acted` flag. -/
def roundCharsGo (env : PipeEnv) :
    List Nat → PipeSt → List LlmCall → List String → Bool →
    PipeSt × List LlmCall × List String × Bool
  | [], st, calls, parts, acted => (st, calls, parts, acted)
  | i :: restIdx, st, calls, parts, acted =>
    if st.err.isSome then (st, calls, parts, acted)
    else
      let char := (st.characters.get? i).getD ⟨"", "", [], 0, ⟨[], [], []⟩, false⟩
      let intentionTpl := rolePrompt env.story_roles "character_intention"
      if intentionTpl = "" then roundCharsGo env restIdx st calls parts acted
      else if ¬ env.o.ren st.renK then
        roundCharsGo env restIdx { st with renK := st.renK + 1 } calls parts acted
      else
        let intentionText := env.o.gen st.genK
        let st := { st with renK := st.renK + 1, genK := st.genK + 1 }
        let st := { st with
          messages := st.messages ++ [Message.intention char.name (pyStrip intentionText)] }
        let calls := calls ++ [LlmCall.intentionCall]
        if env.narrator_tpl ≠ "" then
          if ¬ env.o.ren st.renK then
            roundCharsGo env restIdx { st with renK := st.renK + 1 } calls parts acted
          else
            let resolutionText := env.o.gen st.genK
            let st := { st with renK := st.renK + 1, genK := st.genK + 1 }
            let calls := calls ++ [LlmCall.narratorCall]
            let segments := parse_narrator_output resolutionText env.known_names
            let resolutionPlain := segments_to_text segments
            let st := { st with messages := st.messages ++ segmentsToMessages segments }
            let st := { st with narration_parts := st.narration_parts ++ [resolutionPlain] }
            let parts := parts ++ [resolutionPlain]
            let acted := true
            match roundCharExtractor env i char st calls with
            | (st, calls, cont) =>
              if ¬ cont then roundCharsGo env restIdx st calls parts acted
              else if st.err.isSome then (st, calls, parts, acted)
              else
                match roundPersonaExtractor env resolutionPlain st calls with
                | (st, calls) =>
                  if st.err.isSome then (st, calls, parts, acted)
                  else roundCharsGo env restIdx st calls parts acted
        else
          roundCharsGo env restIdx st calls parts acted

/-- The end-of-round bookkeeping of the round loop: record this round's calls,
collect the round narration, and either break (`if not any_acted`) or run the
remaining rounds (`recurse`). -/
def roundsGoAfterRound (recurse : PipeSt → PipeSt) (st : PipeSt)
    (calls : List LlmCall) (parts : List String) (acted : Bool) : PipeSt :=
  let st := { st with trace := { st.trace with rounds := st.trace.rounds ++ [calls] } }
  let st := if ¬ parts.isEmpty then
      { st with round_all_narrations := st.round_all_narrations ++ [joinDD parts] }
    else st
  if st.err.isSome then st
  else if ¬ acted then st
  else recurse st

/-- The round loop (`for round_num in range(max_rounds)` with its breaks). -/
def roundsGo (env : PipeEnv) : Nat → PipeSt → PipeSt
  | 0, st => st
  | n + 1, st =>
    if st.err.isSome then st
    else if st.characters.isEmpty ∨ env.intention_conn.isNone then st
    else
      let nsf := joinDD st.narration_parts
      let text := pyLower (nsf ++ " " ++ env.player_message)
      let act := activateIdxGo text env.o.rng st.characters.enum st.rngK
      let st := { st with rngK := act.2 }
      if act.1.isEmpty then st
      else
        let C := roundCharsGo env act.1 st [] [] false
        roundsGoAfterRound (roundsGo env n) C.1 C.2.1 C.2.2.1 C.2.2.2

/-- The final lorebook-extractor phase (all exceptions caught and logged). -/
def lorebookPhase (env : PipeEnv) (config : Config) (st : PipeSt) : PipeSt :=
  if st.err.isSome then st
  else
    let conn := resolve_connection config env.story_roles "lorebook_extractor"
    let tpl := rolePrompt env.story_roles "lorebook_extractor"
    if conn.isSome ∧ tpl ≠ "" ∧ ¬ st.round_all_narrations.isEmpty then
      if env.o.ren st.renK then
        let lbText := env.o.gen st.genK
        let st := { st with renK := st.renK + 1, genK := st.genK + 1 }
        let st := { st with trace := { st.trace with lorebook := st.trace.lorebook ++ [LlmCall.lorebookCall] } }
        match apply_lorebook_extractor env.o.loads st.store.lorebook lbText with
        | Except.error _ => st  -- caught by `except (PromptError, Exception)`
        | Except.ok (lb', saved) =>
          if saved then { st with store := { st.store with lorebook := lb' } } else st
      else { st with renK := st.renK + 1 }  -- PromptError: caught
    else st

/-- The final tick-and-persist phase. -/
def tickPhase (st : PipeSt) : PipeSt :=
  if st.err.isSome then st
  else
    let st :=
      if ¬ st.characters.isEmpty then
        let chars' := st.characters.map tick_character
        let st := { st with characters := chars' }
        { st with store := { st.store with saved_characters := some chars' } }
      else st
    let st :=
      match st.active_persona with
      | some p =>
        let p' := tick_persona p
        let st := { st with active_persona := some p' }
        { st with store := { st.store with adventure_personas := saveAdventurePersona st.store.adventure_personas p' } }
      | none => st
    { st with store := { st.store with appended_messages := st.messages } }

/-- `run_pipeline(slug, player_message, adventure, config, story_roles, history,
characters)`.  `history` feeds only lorebook matching (prompt content) and is
not needed by the model.  Returns the final turn state; `err = some e` models
an exception propagating out of `run_pipeline`. -/
def emptyPipeTrace : PipeTrace := ⟨[], [], [], [], []⟩

/-- Phase 1: resolve the player intention through the narrator. -/
def phase1Narrator (env : PipeEnv) (st : PipeSt) : PipeSt :=
  if env.narrator_tpl ≠ "" then
    if env.o.ren st.renK then
      let narratorText := env.o.gen st.genK
      let st := { st with renK := st.renK + 1, genK := st.genK + 1 }
      let st := { st with trace := { st.trace with phase1 := [LlmCall.narratorCall] } }
      let segments := parse_narrator_output narratorText env.known_names
      let st := { st with messages := st.messages ++ segmentsToMessages segments }
      { st with narration_parts := [segments_to_text segments] }
    else
      -- `raise ValueError(f"Prompt template error (narrator): {e}")`
      { st with renK := st.renK + 1, err := some "ValueError: Prompt template error (narrator)" }
  else st

/-- Phase 2: character extractors for characters named in the player resolution. -/
def phase2Block (env : PipeEnv) (st : PipeSt) : PipeSt :=
  if st.err.isSome then st
  else
    let nsf := joinDD st.narration_parts
    if env.extractor_conn.isSome ∧ ¬ st.characters.isEmpty then
      let tpl := rolePrompt env.story_roles "extractor"
      if tpl ≠ "" ∧ nsf ≠ "" then
        phase2Go env tpl (pyLower nsf) [] st.characters st
      else st
    else st

/-- `run_pipeline(slug, player_message, adventure, config, story_roles, history,
characters)`.  `history` feeds only lorebook matching (prompt content) and is
not needed by the model.  Returns the final turn state; `err = some e` models
an exception propagating out of `run_pipeline`. -/
def run_pipeline (player_message : String) (adventure : Adventure) (config : Config)
    (story_roles : StoryRoles) (characters : List Character) (store : Store)
    (o : Oracles) : PipeSt :=
  let newMessages := [Message.player player_message]
  match resolve_connection config story_roles "narrator" with
  | none =>
    -- `raise ValueError("Narrator role is not assigned — configure it in Settings")`
    { characters := characters, active_persona := none, store := store,
      messages := newMessages, narration_parts := [], round_all_narrations := [],
      genK := 0, renK := 0, rngK := 0, trace := emptyPipeTrace,
      err := some "ValueError: Narrator role is not assigned" }
  | some narratorConn =>
    let intentionConn := resolve_connection config story_roles "character_intention"
    let extractorConn := resolve_connection config story_roles "extractor"
    let maxRounds := story_roles.max_rounds.getD 3
    -- persona resolution
    let activePersona : Option Persona :=
      if adventure.active_persona ≠ "" then
        store.merged_personas.find? (fun p => p.slug = adventure.active_persona)
      else none
    -- known names
    let knownNames :=
      characters.flatMap (fun c => c.name :: c.nicknames) ++
        (match activePersona with
          | some p => p.name :: p.nicknames
          | none => if adventure.player_name ≠ "" then [adventure.player_name] else [])
    let narratorTpl := rolePrompt story_roles "narrator"
    let env : PipeEnv := ⟨o, story_roles, narratorConn, intentionConn, extractorConn,
      knownNames, player_message, narratorTpl⟩
    let st : PipeSt := ⟨characters, activePersona, store, newMessages, [], [], 0, 0, 0,
      emptyPipeTrace, none⟩
    let st := phase1Narrator env st
    let st := phase2Block env st
    let st := phase3Persona env st
    let st := { st with round_all_narrations := [joinDD st.narration_parts] }
    let st := roundsGo env maxRounds st
    let st := lorebookPhase env config st
    tickPhase st

/-! ## Lemmas about the character-state engine -/

theorem tickPass_some_eq (rate c : Int) (l : List StateEntry) :
    tickPass rate (some c) l =
      (l.map fun s => (⟨s.label, min (s.value + rate) c⟩ : StateEntry)).filter
        (fun s => 0 < s.value) := by
  induction l with
  | nil => rfl
  | cons s rest ih =>
    simp only [tickPass, List.map_cons, List.filter_cons]
    have hmin : (if s.value + rate > c then c else s.value + rate) = min (s.value + rate) c := by
      omega
    rw [hmin]
    by_cases h : 0 < min (s.value + rate) c
    · simp [h, ih]
    · simp [h, ih, not_lt.mp h]

theorem tickPass_none_eq (rate : Int) (l : List StateEntry) :
    tickPass rate none l =
      (l.map fun s => (⟨s.label, s.value + rate⟩ : StateEntry)).filter
        (fun s => 0 < s.value) := by
  induction l with
  | nil => rfl
  | cons s rest ih =>
    simp only [tickPass, List.map_cons, List.filter_cons]
    by_cases h : 0 < s.value + rate
    · simp [h, ih]
    · simp [h, ih, not_lt.mp h]

theorem tickPass_label_mem (rate : Int) (cap : Option Int) (l : List StateEntry) :
    ∀ s' ∈ tickPass rate cap l, s'.label ∈ l.map StateEntry.label := by
  induction l with
  | nil => intro s' h; cases h
  | cons s rest ih =>
    intro s' h
    simp only [tickPass] at h
    split at h
    · rcases List.mem_cons.mp h with h' | h'
      · subst h'; simp
      · simpa using Or.inr (ih s' h')
    · simpa using Or.inr (ih s' h)

theorem tick_character_states (c : Character) :
    (tick_character c).states =
      ⟨tickPass 2 (some 30) c.states.core,
       (promoteLoop (tickPass 1 (some 20) c.states.persistent)
         (tickPass (-1) none c.states.temporal)).1,
       (promoteLoop (tickPass 1 (some 20) c.states.persistent)
         (tickPass (-1) none c.states.temporal)).2⟩ := rfl

theorem promote_limit_is_ten : ((CATEGORY_LIMITS.lookup "persistent").getD 0 : Nat) = 10 := rfl

theorem promoteLoop_fst_append (temp : List StateEntry) :
    ∀ pers, ∃ pr, (promoteLoop pers temp).1 = pers ++ pr ∧
      ∀ s ∈ pr, 20 ≤ s.value ∧ s ∈ temp := by
  induction temp with
  | nil => intro pers; exact ⟨[], by simp [promoteLoop], by simp⟩
  | cons s rest ih =>
    intro pers
    simp only [promoteLoop]
    split
    · obtain ⟨pr, hpr, hmem⟩ := ih (pers ++ [s])
      refine ⟨s :: pr, by simp [hpr], ?_⟩
      intro x hx
      rcases List.mem_cons.mp hx with h | h
      · subst h
        rename_i hcond
        exact ⟨hcond.1, by simp⟩
      · exact ⟨(hmem x h).1, List.mem_cons_of_mem _ (hmem x h).2⟩
    · obtain ⟨pr, hpr, hmem⟩ := ih pers
      refine ⟨pr, by simp [hpr], ?_⟩
      intro x hx
      exact ⟨(hmem x hx).1, List.mem_cons_of_mem _ (hmem x hx).2⟩

theorem promoteLoop_fst_length_le (temp : List StateEntry) :
    ∀ pers, (promoteLoop pers temp).1.length ≤ max pers.length 10 := by
  induction temp with
  | nil => intro pers; simp [promoteLoop]
  | cons s rest ih =>
    intro pers
    simp only [promoteLoop]
    split
    · rename_i hcond
      rw [promote_limit_is_ten] at hcond
      calc (promoteLoop (pers ++ [s]) rest).1.length
          ≤ max (pers ++ [s]).length 10 := ih (pers ++ [s])
        _ ≤ max pers.length 10 := by simp; omega
    · exact ih pers

theorem promoteLoop_fst_length_ge (temp : List StateEntry) (pers : List StateEntry) :
    pers.length ≤ (promoteLoop pers temp).1.length := by
  obtain ⟨pr, hpr, -⟩ := promoteLoop_fst_append temp pers
  simp [hpr]

theorem promoteLoop_snd_sublist (temp : List StateEntry) :
    ∀ pers, (promoteLoop pers temp).2.Sublist temp := by
  induction temp with
  | nil => intro pers; simp [promoteLoop]
  | cons s rest ih =>
    intro pers
    simp only [promoteLoop]
    split
    · exact (ih (pers ++ [s])).trans (List.sublist_cons_self s rest)
    · exact List.Sublist.cons₂ s (ih pers)

theorem promoteLoop_snd_stuck (temp : List StateEntry) :
    ∀ pers, ∀ s ∈ (promoteLoop pers temp).2,
      20 ≤ s.value → 10 ≤ (promoteLoop pers temp).1.length := by
  induction temp with
  | nil => intro pers s h; cases h
  | cons s rest ih =>
    intro pers x hx hval
    by_cases hcond : s.value ≥ 20 ∧ pers.length < ((CATEGORY_LIMITS.lookup "persistent").getD 0 : Nat)
    · simp only [promoteLoop, if_pos hcond] at hx ⊢
      exact ih (pers ++ [s]) x hx hval
    · simp only [promoteLoop, if_neg hcond] at hx ⊢
      rw [promote_limit_is_ten] at hcond
      rcases List.mem_cons.mp hx with h | h
      · subst h
        have h10 : 10 ≤ pers.length := by
          rcases Decidable.not_and_iff_or_not.mp hcond with h' | h'
          · omega
          · omega
        exact le_trans h10 (promoteLoop_fst_length_ge rest pers)
      · exact ih pers x h hval

theorem promoteLoop_length_sum (temp : List StateEntry) :
    ∀ pers, (promoteLoop pers temp).1.length + (promoteLoop pers temp).2.length =
      pers.length + temp.length := by
  induction temp with
  | nil => intro pers; simp [promoteLoop]
  | cons s rest ih =>
    intro pers
    simp only [promoteLoop]
    split
    · have := ih (pers ++ [s])
      simp at this
      simp [this]
      omega
    · have := ih pers
      simp [this]
      omega

theorem promoteLoop_fst_mem (temp pers : List StateEntry) :
    ∀ s ∈ (promoteLoop pers temp).1, s ∈ pers ∨ s ∈ temp := by
  intro s hs
  obtain ⟨pr, hpr, hmem⟩ := promoteLoop_fst_append temp pers
  rw [hpr] at hs
  rcases List.mem_append.mp hs with h | h
  · exact Or.inl h
  · exact Or.inr (hmem s h).2

/-! ## Claim C1 -/

/-- C1, counterexample: the claim "describe_state(label, v) returns None iff
v ≤ 5, and every v ≥ 6 falls in exactly one non-silent tier" fails at v = 31:
the top tier of `THRESHOLD_LEVELS` ends at 30 inclusive, so `describe_state`
falls off the table and returns `None` although 31 > 5. -/
theorem describe_state_gap_at_31 :
    describe_state "Resolve" 31 = none ∧ ¬ ((31 : Int) ≤ 5) := by
  exact ⟨rfl, by norm_num⟩

/-- C1, amended: for every label and integer value v, `describe_state(label, v)`
returns None iff v ≤ 5 or v > 30; on 6..30 the four non-silent tiers are
inclusive and contiguous with no gaps or overlaps, and each yields its tier's
template filled with the label. -/
theorem describe_state_tiers (label : String) (v : Int) :
    (describe_state label v = none ↔ (v ≤ 5 ∨ 30 < v))
      ∧ (6 ≤ v ∧ v ≤ 10 →
          describe_state label v =
            some (pyFormatLabel "feels a subconscious nudge related to {label}" label))
      ∧ (11 ≤ v ∧ v ≤ 15 →
          describe_state label v =
            some (pyFormatLabel "{label} is manifest in their body language" label))
      ∧ (16 ≤ v ∧ v ≤ 20 →
          describe_state label v =
            some (pyFormatLabel "{label} dominates their current priorities" label))
      ∧ (21 ≤ v ∧ v ≤ 30 →
          describe_state label v =
            some (pyFormatLabel "{label} is a core truth they would die for" label)) := by
  simp only [describe_state, THRESHOLD_LEVELS, describeLoop]
  refine ⟨?_, ?_, ?_, ?_, ?_⟩ <;> split_ifs <;> simp_all <;> omega

/-- C1 witness: at v = 18 the claim's hypotheses hold and the dominant tier fires. -/
theorem describe_state_tiers_witness :
    ((16 : Int) ≤ 18 ∧ (18 : Int) ≤ 20) ∧
      describe_state "Duty" 18 =
        some (pyFormatLabel "{label} dominates their current priorities" "Duty") :=
  ⟨by norm_num, (describe_state_tiers "Duty" 18).2.2.2.1 (by norm_num)⟩

/-! ## Claim C2 -/

/-- C2: `tick_character` adds the per-category delta (core +2, persistent +1,
temporal −1) to every state's value, clamps to the category ceiling where one
exists (core 30, persistent 20, temporal uncapped), and drops a state exactly
when the post-delta value is ≤ 0; the persistent/temporal lists then go through
the promotion pass.  In particular core=[{Loyal,29}] ticks to core=[{Loyal,30}]. -/
theorem tick_value_update (c : Character) :
    (tick_character c).states.core =
        (c.states.core.map fun s => (⟨s.label, min (s.value + 2) 30⟩ : StateEntry)).filter
          (fun s => 0 < s.value)
      ∧ ((tick_character c).states.persistent, (tick_character c).states.temporal) =
          promoteLoop
            ((c.states.persistent.map fun s => (⟨s.label, min (s.value + 1) 20⟩ : StateEntry)).filter
              (fun s => 0 < s.value))
            ((c.states.temporal.map fun s => (⟨s.label, s.value - 1⟩ : StateEntry)).filter
              (fun s => 0 < s.value))
      ∧ tick_character ⟨"Keeper", "keeper", [], 50, ⟨[⟨"Loyal", 29⟩], [], []⟩, false⟩
          = ⟨"Keeper", "keeper", [], 50, ⟨[⟨"Loyal", 30⟩], [], []⟩, false⟩ := by
  have hsub : (fun s : StateEntry => (⟨s.label, s.value + (-1)⟩ : StateEntry))
      = (fun s : StateEntry => (⟨s.label, s.value - 1⟩ : StateEntry)) := by
    funext s
    simp [Int.sub_eq_add_neg]
  refine ⟨?_, ?_, by decide⟩
  · rw [tick_character_states]
    exact tickPass_some_eq 2 30 c.states.core
  · rw [tick_character_states]
    rw [← tickPass_some_eq 1 20 c.states.persistent, ← hsub, ← tickPass_none_eq (-1) c.states.temporal]

/-! ## Claim C3 -/

/-- C3, counterexample: the claim "a state with value 0 in any category is
removed by the next tick" fails for core: a core state at 0 ticks to 2 and
stays. -/
theorem tick_keeps_zero_core_state :
    (⟨"Guard", "guard", [], 50, ⟨[⟨"Stern", 0⟩], [], []⟩, false⟩ : Character).states.core
        = [⟨"Stern", 0⟩]
      ∧ (tick_character ⟨"Guard", "guard", [], 50, ⟨[⟨"Stern", 0⟩], [], []⟩, false⟩).states.core
        = [⟨"Stern", 2⟩] := by
  exact ⟨rfl, by decide⟩

/-- C3, amended: a `temporal` state with value 0 is removed by the next tick
(post-tick temporal entries all derive from pre-tick temporal entries with
value ≥ 2, and every persistent entry comes from the persistent pass or from a
surviving decremented temporal entry), and `tick_character` never introduces a
label that was not already on the character, so a removed state cannot
re-appear on later ticks; core and persistent states with value 0 are instead
kept, ticking to 2 and 1 respectively. -/
theorem tick_zero_state_removal (c : Character) :
    (∀ lab, lab ∈ charLabels (tick_character c) → lab ∈ charLabels c)
      ∧ ((tick_character c).states.temporal.Sublist
          ((c.states.temporal.map fun s => (⟨s.label, s.value - 1⟩ : StateEntry)).filter
            (fun s => 0 < s.value)))
      ∧ (∀ s' ∈ (tick_character c).states.persistent,
          s' ∈ tickPass 1 (some 20) c.states.persistent ∨
            s' ∈ ((c.states.temporal.map fun s => (⟨s.label, s.value - 1⟩ : StateEntry)).filter
              (fun s => 0 < s.value)))
      ∧ (∀ s ∈ c.states.core, s.value = 0 →
          (⟨s.label, 2⟩ : StateEntry) ∈ (tick_character c).states.core)
      ∧ (∀ s ∈ c.states.persistent, s.value = 0 →
          (⟨s.label, 1⟩ : StateEntry) ∈ (tick_character c).states.persistent) := by
  have hsub : (fun s : StateEntry => (⟨s.label, s.value + (-1)⟩ : StateEntry))
      = (fun s : StateEntry => (⟨s.label, s.value - 1⟩ : StateEntry)) := by
    funext s
    simp [Int.sub_eq_add_neg]
  have htemp : tickPass (-1) none c.states.temporal =
      (c.states.temporal.map fun s => (⟨s.label, s.value - 1⟩ : StateEntry)).filter
        (fun s => 0 < s.value) := by
    rw [tickPass_none_eq, hsub]
  refine ⟨?_, ?_, ?_, ?_, ?_⟩
  · intro lab hlab
    simp only [charLabels, List.mem_map, List.mem_append] at hlab ⊢
    obtain ⟨s', hs', rfl⟩ := hlab
    rw [tick_character_states] at hs'
    simp only at hs'
    rcases hs' with (h | h) | h
    · have := tickPass_label_mem 2 (some 30) c.states.core s' h
      simp only [List.mem_map] at this
      obtain ⟨t, ht, hlab⟩ := this
      exact ⟨t, Or.inl (Or.inl ht), hlab⟩
    · rcases promoteLoop_fst_mem _ _ s' h with h' | h'
      · have := tickPass_label_mem 1 (some 20) c.states.persistent s' h'
        simp only [List.mem_map] at this
        obtain ⟨t, ht, hlab⟩ := this
        exact ⟨t, Or.inl (Or.inr ht), hlab⟩
      · have := tickPass_label_mem (-1) none c.states.temporal s' h'
        simp only [List.mem_map] at this
        obtain ⟨t, ht, hlab⟩ := this
        exact ⟨t, Or.inr ht, hlab⟩
    · have h' := (promoteLoop_snd_sublist _ _).mem h
      have := tickPass_label_mem (-1) none c.states.temporal s' h'
      simp only [List.mem_map] at this
      obtain ⟨t, ht, hlab⟩ := this
      exact ⟨t, Or.inr ht, hlab⟩
  · rw [tick_character_states, ← htemp]
    exact promoteLoop_snd_sublist _ _
  · intro s' hs'
    rw [tick_character_states] at hs'
    simp only at hs'
    rcases promoteLoop_fst_mem _ _ s' hs' with h | h
    · exact Or.inl h
    · rw [htemp] at h
      exact Or.inr h
  · intro s hs hval
    rw [tick_character_states]
    simp only [tickPass_some_eq, List.mem_filter, List.mem_map]
    refine ⟨⟨s, hs, ?_⟩, by norm_num⟩
    rw [hval]
    norm_num
  · intro s hs hval
    rw [tick_character_states]
    simp only
    obtain ⟨pr, hpr, -⟩ := promoteLoop_fst_append
      (tickPass (-1) none c.states.temporal) (tickPass 1 (some 20) c.states.persistent)
    rw [hpr]
    refine List.mem_append_left _ ?_
    simp only [tickPass_some_eq, List.mem_filter, List.mem_map]
    refine ⟨⟨s, hs, ?_⟩, by norm_num⟩
    rw [hval]
    norm_num

/-- C3 witness: a temporal state at 0 disappears, a core state at 0 survives as 2. -/
theorem tick_zero_state_removal_witness :
    ((⟨"Echo", 0⟩ : StateEntry) ∈
        (⟨"W", "w", [], 50, ⟨[⟨"Brave", 0⟩], [], [⟨"Echo", 0⟩]⟩, false⟩ : Character).states.core
      → False)
    ∧ ((⟨"Brave", 0⟩ : StateEntry) ∈
        (⟨"W", "w", [], 50, ⟨[⟨"Brave", 0⟩], [], [⟨"Echo", 0⟩]⟩, false⟩ : Character).states.core
      ∧ (⟨"Brave", 2⟩ : StateEntry) ∈
        (tick_character ⟨"W", "w", [], 50, ⟨[⟨"Brave", 0⟩], [], [⟨"Echo", 0⟩]⟩, false⟩).states.core) := by
  refine ⟨by decide, by decide, ?_⟩
  exact (tick_zero_state_removal
    ⟨"W", "w", [], 50, ⟨[⟨"Brave", 0⟩], [], [⟨"Echo", 0⟩]⟩, false⟩).2.2.2.1
    ⟨"Brave", 0⟩ (by decide) rfl

/-! ## Claim C4 -/

/-- C4: after the value-update pass, the promotion pass appends to `persistent`
only surviving temporal states with value ≥ 20 (conjunct 2), a surviving
temporal state with value ≥ 20 stays temporal only when the persistent list is
full — so it is moved iff the slot limit of 10 was not yet reached (conjunct 3),
promotion never lifts the persistent list above max(its post-pass length, 10)
(conjunct 1), and promoted states leave temporal — the lists' combined length
is conserved, so nothing re-appears on the same tick (conjunct 4). -/
theorem tick_promotion (c : Character) :
    ((tick_character c).states.persistent.length ≤
        max (tickPass 1 (some 20) c.states.persistent).length 10)
      ∧ (∃ pr, (tick_character c).states.persistent =
            tickPass 1 (some 20) c.states.persistent ++ pr ∧
          ∀ s ∈ pr, 20 ≤ s.value ∧ s ∈ tickPass (-1) none c.states.temporal)
      ∧ (∀ s ∈ (tick_character c).states.temporal,
          s ∈ tickPass (-1) none c.states.temporal ∧
            (20 ≤ s.value → 10 ≤ (tick_character c).states.persistent.length))
      ∧ ((tick_character c).states.persistent.length +
            (tick_character c).states.temporal.length =
          (tickPass 1 (some 20) c.states.persistent).length +
            (tickPass (-1) none c.states.temporal).length) := by
  rw [tick_character_states]
  simp only
  refine ⟨promoteLoop_fst_length_le _ _, promoteLoop_fst_append _ _, ?_, promoteLoop_length_sum _ _⟩
  intro s hs
  exact ⟨(promoteLoop_snd_sublist _ _).mem hs, promoteLoop_snd_stuck _ _ s hs⟩

/-- C4 witness: with a full persistent list (10 slots), a 20-valued surviving
temporal state is not promoted, and the persistent length stays 10. -/
theorem tick_promotion_witness :
    ((⟨"Hot", 20⟩ : StateEntry) ∈
        (tick_character ⟨"P", "p", [], 50,
          ⟨[], [⟨"a",5⟩,⟨"b",5⟩,⟨"c",5⟩,⟨"d",5⟩,⟨"e",5⟩,⟨"f",5⟩,⟨"g",5⟩,⟨"h",5⟩,⟨"i",5⟩,⟨"j",5⟩],
            [⟨"Hot", 21⟩]⟩, false⟩).states.temporal)
    ∧ (10 : Nat) ≤
        (tick_character ⟨"P", "p", [], 50,
          ⟨[], [⟨"a",5⟩,⟨"b",5⟩,⟨"c",5⟩,⟨"d",5⟩,⟨"e",5⟩,⟨"f",5⟩,⟨"g",5⟩,⟨"h",5⟩,⟨"i",5⟩,⟨"j",5⟩],
            [⟨"Hot", 21⟩]⟩, false⟩).states.persistent.length := by
  refine ⟨by decide, ?_⟩
  exact ((tick_promotion ⟨"P", "p", [], 50,
    ⟨[], [⟨"a",5⟩,⟨"b",5⟩,⟨"c",5⟩,⟨"d",5⟩,⟨"e",5⟩,⟨"f",5⟩,⟨"g",5⟩,⟨"h",5⟩,⟨"i",5⟩,⟨"j",5⟩],
      [⟨"Hot", 21⟩]⟩, false⟩).2.2.1 ⟨"Hot", 20⟩ (by decide)).2 (by norm_num)

/-! ## Claim C10 -/

/-- C10: the promotion pass moves a temporal state into `persistent` with its
exact value, without clamping to the persistent ceiling of 20: promoted entries
are verbatim members of the input lists, and a character with temporal
[{Dread, 26}] ticks to persistent [{Dread, 25}] with 25 > 20. -/
theorem promotion_keeps_value (c : Character) :
    (∀ s ∈ (tick_character c).states.persistent,
        s ∈ tickPass 1 (some 20) c.states.persistent ∨
          s ∈ tickPass (-1) none c.states.temporal)
      ∧ (tick_character ⟨"Shade", "shade", [], 50, ⟨[], [], [⟨"Dread", 26⟩]⟩, false⟩).states.persistent
          = [⟨"Dread", 25⟩]
      ∧ (∃ s ∈ (tick_character
            ⟨"Shade", "shade", [], 50, ⟨[], [], [⟨"Dread", 26⟩]⟩, false⟩).states.persistent,
          20 < s.value) := by
  refine ⟨?_, by decide, ⟨⟨"Dread", 25⟩, by decide, by norm_num⟩⟩
  intro s hs
  rw [tick_character_states] at hs
  exact promoteLoop_fst_mem _ _ s hs

/-- C10 witness: instantiating the membership conjunct on the concrete example. -/
theorem promotion_keeps_value_witness :
    (⟨"Dread", 25⟩ : StateEntry) ∈
        (tick_character ⟨"Shade", "shade", [], 50, ⟨[], [], [⟨"Dread", 26⟩]⟩, false⟩).states.persistent
      ∧ ((⟨"Dread", 25⟩ : StateEntry) ∈
          tickPass 1 (some 20) (⟨"Shade", "shade", [], 50, ⟨[], [], [⟨"Dread", 26⟩]⟩,
            false⟩ : Character).states.persistent ∨
        (⟨"Dread", 25⟩ : StateEntry) ∈
          tickPass (-1) none (⟨"Shade", "shade", [], 50, ⟨[], [], [⟨"Dread", 26⟩]⟩,
            false⟩ : Character).states.temporal) := by
  refine ⟨by decide, ?_⟩
  exact (promotion_keeps_value
    ⟨"Shade", "shade", [], 50, ⟨[], [], [⟨"Dread", 26⟩]⟩, false⟩).1 ⟨"Dread", 25⟩ (by decide)

/-! ## Claim C7 -/

theorem parseLinesLoop_no_dialog (names : List String) (lines : List String)
    (h : ∀ line ∈ lines, lineIsDialogRecognized names line.data = false) :
    ∀ current, ∃ current', parseLinesLoop names lines current = flushNarration current' := by
  induction lines with
  | nil => intro current; exact ⟨current, rfl⟩
  | cons line rest ih =>
    intro current
    have hline := h line (List.mem_cons_self line rest)
    have hrest : ∀ l ∈ rest, lineIsDialogRecognized names l.data = false :=
      fun l hl => h l (List.mem_cons_of_mem _ hl)
    simp only [parseLinesLoop]
    by_cases hstrip : pyStrip line = ""
    · rw [if_pos hstrip]
      exact ih hrest _
    · rw [if_neg hstrip]
      unfold lineIsDialogRecognized at hline
      cases hmd : matchDialog (pyStrip line).data with
      | none =>
        simp only [hmd]
        exact ih hrest _
      | some g =>
        obtain ⟨nm, emo, txt⟩ := g
        have : stripList line.data = (pyStrip line).data := rfl
        rw [this] at hline
        rw [hmd] at hline
        simp only [hmd]
        cases hlook : nameLookup names (pyLower (pyStrip ⟨nm⟩)) with
        | none => exact ih hrest _
        | some canonical => simp [hlook] at hline

/-- C7: empty or whitespace-only narrator text parses to exactly one
`{narration, ""}` segment; text in which no line is a recognized dialog line
(in particular text with no recognized names, including dialog-shaped lines
whose captured name is unknown) parses to exactly one narration segment; a
concrete unknown-name dialog line is kept verbatim as narration. -/
theorem parse_narrator_blocks (text : String) (names : List String) :
    (pyStrip text = "" → parse_narrator_output text names = [Segment.narration ""])
      ∧ ((∀ line ∈ splitNL text.data, lineIsDialogRecognized names line = false) →
          ∃ t, parse_narrator_output text names = [Segment.narration t])
      ∧ parse_narrator_output "Bob(angry): This is mine!" ["Gabrielle"]
          = [Segment.narration "Bob(angry): This is mine!"] := by
  refine ⟨?_, ?_, by decide⟩
  · intro h
    unfold parse_narrator_output
    rw [if_pos h]
  · intro h
    by_cases hstrip : pyStrip text = ""
    · exact ⟨"", by unfold parse_narrator_output; rw [if_pos hstrip]⟩
    · have h' : ∀ line ∈ (splitNL text.data).map (fun l => (⟨l⟩ : String)),
          lineIsDialogRecognized names line.data = false := by
        intro line hline
        obtain ⟨l, hl, rfl⟩ := List.mem_map.mp hline
        exact h l hl
      obtain ⟨current', hcur⟩ := parseLinesLoop_no_dialog names _ h' []
      unfold parse_narrator_output
      rw [if_neg hstrip]
      rw [hcur]
      unfold flushNarration
      by_cases hc : current' = []
      · rw [if_pos hc]
        exact ⟨"", rfl⟩
      · rw [if_neg hc]
        simp only [List.filter]
        cases hkeep : keepSegment (Segment.narration ⟨stripList (joinNL (current'.map String.data))⟩) with
        | false => exact ⟨"", rfl⟩
        | true => exact ⟨_, rfl⟩

/-- C7 witness: whitespace-only input, and a two-paragraph text with a
dialog-shaped unknown-name line, both at concrete inputs. -/
theorem parse_narrator_blocks_witness :
    (pyStrip "   \n  \n  " = ""
      ∧ parse_narrator_output "   \n  \n  " [] = [Segment.narration ""])
    ∧ ((∀ line ∈ splitNL "First.\n\nBob(angry): mine!\nSecond.".data,
          lineIsDialogRecognized ["Gabrielle"] line = false)
      ∧ ∃ t, parse_narrator_output "First.\n\nBob(angry): mine!\nSecond." ["Gabrielle"]
          = [Segment.narration t]) :=
  ⟨⟨by decide, (parse_narrator_blocks "   \n  \n  " []).1 (by decide)⟩,
   ⟨by decide, (parse_narrator_blocks "First.\n\nBob(angry): mine!\nSecond." ["Gabrielle"]).2.1
      (by decide)⟩⟩

/-! ## Claim C8 -/

theorem activateGo_sublist (text : String) (rng : Nat → Int) (chars : List Character) :
    ∀ k, (activateGo text rng chars k).1.Sublist chars := by
  induction chars with
  | nil => intro k; simp [activateGo]
  | cons c rest ih =>
    intro k
    by_cases hm : nameMatches c text
    · simp only [activateGo, if_pos hm]
      exact List.Sublist.cons₂ c (ih k)
    · by_cases hr : rng k < c.chattiness
      · simp only [activateGo, if_neg hm, if_pos hr]
        exact List.Sublist.cons₂ c (ih (k + 1))
      · simp only [activateGo, if_neg hm, if_neg hr]
        exact (ih (k + 1)).trans (List.sublist_cons_self c rest)

theorem activateGo_draws (text : String) (rng : Nat → Int) (chars : List Character) :
    ∀ k, (activateGo text rng chars k).2 =
      k + (chars.filter (fun c => !(nameMatches c text))).length := by
  induction chars with
  | nil => intro k; simp [activateGo]
  | cons c rest ih =>
    intro k
    by_cases hm : nameMatches c text
    · simp only [activateGo, if_pos hm, List.filter_cons, hm]
      simp [ih k]
    · by_cases hr : rng k < c.chattiness
      · simp only [activateGo, if_neg hm, if_pos hr, List.filter_cons]
        simp [hm, ih (k + 1)]
        omega
      · simp only [activateGo, if_neg hm, if_neg hr, List.filter_cons]
        simp [hm, ih (k + 1)]
        omega

theorem activateGo_eq_specFrom (text : String) (rng : Nat → Int) (chars : List Character) :
    ∀ n k, (activateGo text rng chars k).1 =
      ((List.enumFrom n chars).filter (fun ic =>
        nameMatches ic.2 text ||
          decide (rng (k + ((chars.take (ic.1 - n)).filter
              (fun c => !(nameMatches c text))).length)
            < ic.2.chattiness))).map (fun ic => ic.2) := by
  induction chars with
  | nil => intro n k; simp [activateGo, List.enumFrom]
  | cons c rest ih =>
    intro n k
    rw [show List.enumFrom n (c :: rest) = (n, c) :: List.enumFrom (n + 1) rest from rfl]
    rw [List.filter_cons]
    have htail : ((List.enumFrom (n + 1) rest).filter (fun ic =>
        nameMatches ic.2 text ||
          decide (rng (k + (((c :: rest).take (ic.1 - n)).filter
            (fun c => !(nameMatches c text))).length) < ic.2.chattiness))) =
        ((List.enumFrom (n + 1) rest).filter (fun ic =>
          nameMatches ic.2 text ||
            decide (rng ((k + cond (nameMatches c text) 0 1) +
                ((rest.take (ic.1 - (n + 1))).filter
                  (fun c => !(nameMatches c text))).length) < ic.2.chattiness))) := by
      apply List.filter_congr
      intro ic hic
      obtain ⟨i, x⟩ := ic
      have hle : n + 1 ≤ i := (List.mk_mem_enumFrom_iff_le_and_get?_sub.mp hic).1
      have hidx : i - n = (i - (n + 1)) + 1 := by omega
      rw [hidx, List.take_succ_cons]
      cases hmb : nameMatches c text with
      | true =>
        have hflen : (List.filter (fun c => !nameMatches c text)
            (c :: List.take (i - (n + 1)) rest)).length =
            (List.filter (fun c => !nameMatches c text)
              (List.take (i - (n + 1)) rest)).length := by
          simp [List.filter_cons, hmb]
        rw [hflen]
        simp
      | false =>
        have hflen : (List.filter (fun c => !nameMatches c text)
            (c :: List.take (i - (n + 1)) rest)).length =
            (List.filter (fun c => !nameMatches c text)
              (List.take (i - (n + 1)) rest)).length + 1 := by
          simp [List.filter_cons, hmb]
        rw [hflen]
        have harith : k + ((List.filter (fun c => !nameMatches c text)
            (List.take (i - (n + 1)) rest)).length + 1) =
            k + 1 + (List.filter (fun c => !nameMatches c text)
              (List.take (i - (n + 1)) rest)).length := by
          omega
        rw [harith]
        simp
    by_cases hm : nameMatches c text
    · have hhead : (nameMatches ((n, c) : Nat × Character).2 text ||
          decide (rng (k + (((c :: rest).take (((n, c) : Nat × Character).1 - n)).filter
            (fun c => !(nameMatches c text))).length) < ((n, c) : Nat × Character).2.chattiness))
          = true := by
        simp [hm]
      rw [if_pos hhead, htail]
      simp only [activateGo, if_pos hm]
      rw [List.map_cons]
      congr 1
      have := ih (n + 1) k
      simpa [hm] using this
    · have hmf : nameMatches c text = false := by simpa using hm
      by_cases hr : rng k < c.chattiness
      · have hhead : (nameMatches ((n, c) : Nat × Character).2 text ||
            decide (rng (k + (((c :: rest).take (((n, c) : Nat × Character).1 - n)).filter
              (fun c => !(nameMatches c text))).length) < ((n, c) : Nat × Character).2.chattiness))
            = true := by
          have h0 : ((n, c) : Nat × Character).1 - n = 0 := by omega
          simp [hmf, h0, hr]
        rw [if_pos hhead, htail]
        simp only [activateGo, if_neg hm, if_pos hr]
        rw [List.map_cons]
        congr 1
        have := ih (n + 1) (k + 1)
        simpa [hmf] using this
      · have hhead : ¬ ((nameMatches ((n, c) : Nat × Character).2 text ||
            decide (rng (k + (((c :: rest).take (((n, c) : Nat × Character).1 - n)).filter
              (fun c => !(nameMatches c text))).length) < ((n, c) : Nat × Character).2.chattiness))
            = true) := by
          have h0 : ((n, c) : Nat × Character).1 - n = 0 := by omega
          simp [hmf, h0, hr]
        rw [if_neg hhead, htail]
        simp only [activateGo, if_neg hm, if_neg hr]
        have := ih (n + 1) (k + 1)
        simpa [hmf] using this

theorem activateGo_eq_spec (text : String) (rng : Nat → Int) (chars : List Character) :
    ∀ k, (activateGo text rng chars k).1 =
      (chars.enum.filter (fun ic =>
        nameMatches ic.2 text ||
          decide (rng (k + ((chars.take ic.1).filter (fun c => !(nameMatches c text))).length)
            < ic.2.chattiness))).map (fun ic => ic.2) := by
  intro k
  have h := activateGo_eq_specFrom text rng chars 0 k
  rw [show List.enum chars = List.enumFrom 0 chars from rfl]
  simpa using h

/-- C8: `activate_characters` marks a character active whenever one of its
lower-cased names occurs in the lower-cased `narration + " " + player_message`;
otherwise the character is active iff its dedicated uniform draw (the one at
index `k` plus the number of earlier non-name-matching roster characters) is
`< chattiness` — this is exactly `activateSpec`, the spec-worded filter; the
returned list is a sublist of the roster (roster order preserved), and the
number of consumed draws is the number of non-name-matching characters. -/
theorem activate_characters_rule (chars : List Character) (narration msg : String)
    (rng : Nat → Int) (k : Nat) :
    (activate_characters chars narration msg rng k).1 = activateSpec chars narration msg rng k
      ∧ (activate_characters chars narration msg rng k).1.Sublist chars
      ∧ (activate_characters chars narration msg rng k).2 =
          k + (chars.filter
            (fun c => !(nameMatches c (pyLower (narration ++ " " ++ msg))))).length :=
  ⟨activateGo_eq_spec _ rng chars k, activateGo_sublist _ rng chars k,
    activateGo_draws _ rng chars k⟩

/-! ## Lemmas about the extractor applier -/

theorem exceptOkBind {ε α β : Type} (a : α) (f : α → Except ε β) :
    (Except.ok a : Except ε α) >>= f = f a := rfl

theorem updateStateLoop_str (ls : String) (v : Int) (l : List StateEntry) :
    updateStateLoop (Json.str ls) v l =
      Except.ok (match l.findIdx? (fun s => pyLower s.label = pyLower ls) with
        | some i => (l.set i { ((l.get? i).getD ⟨ls, v⟩) with value := v }, true)
        | none => (l, false)) := by
  induction l with
  | nil => rfl
  | cons s rest ih =>
    simp only [updateStateLoop, List.findIdx?_cons]
    by_cases h : pyLower s.label = pyLower ls
    · rw [if_pos (by simpa using h)]
      simp [h]
    · rw [if_neg (by simpa using h)]
      rw [if_neg (by simp [h] : ¬ (decide (pyLower s.label = pyLower ls) = true))]
      rw [List.findIdx?_succ]
      simp only [ih]
      cases hird : rest.findIdx? (fun s => pyLower s.label = pyLower ls) with
      | none => simp only [hird]; rfl
      | some i => simp only [hird]; rfl

theorem applyOneUpdate_ok (states : States) (u : Json) (hu : updateOk u = true) :
    applyOneUpdate states u =
      Except.ok (match validTriple u with
        | some t => specApplyUpdate states t.1 t.2.1 t.2.2
        | none => states) := by
  have hif : ∀ v cc : Int, (if v > cc then cc else v) = min v cc := by
    intro v cc; omega
  cases u with
  | obj kvs =>
    cases hcat : jgetD kvs "category" Json.null with
    | str cs =>
      by_cases hcs : cs = "core" ∨ cs = "persistent" ∨ cs = "temporal"
      · have hcs' : (cs = "core" ∨ cs = "persistent" ∨ cs = "temporal") = True := eq_true hcs
        by_cases hval : pyTruthy (jgetD kvs "label" (Json.str "")) ∧
            isNumeric (jgetD kvs "value" (Json.num 0))
        · cases hlab : jgetD kvs "label" (Json.str "") with
          | str ls =>
            rw [hlab] at hval
            have hval' : (pyTruthy (Json.str ls) ∧
                isNumeric (jgetD kvs "value" (Json.num 0))) = True := eq_true hval
            have hnval : (¬ pyTruthy (Json.str ls) ∨
                ¬ isNumeric (jgetD kvs "value" (Json.num 0))) = False :=
              eq_false (by simp [hval.1, hval.2])
            simp only [applyOneUpdate, validTriple, hcat, hlab, hcs', hval', hnval,
              if_true, if_false, updateStateLoop_str, hif, exceptOkBind,
              specApplyUpdate, specOverwrite, specClamp]
            cases hird : (getCategory states cs).findIdx?
                (fun s => pyLower s.label = pyLower ls) with
            | none => simp only [hird]; rfl
            | some i => simp only [hird]; rfl
          | num n =>
            exfalso
            simp only [updateOk, hlab] at hu
            rw [hlab] at hval
            exact absurd hval.1 (by simpa using hu)
          | bool b =>
            exfalso
            simp only [updateOk, hlab] at hu
            rw [hlab] at hval
            exact absurd hval.1 (by simpa using hu)
          | null =>
            rw [hlab] at hval
            simp [pyTruthy] at hval
          | arr xs =>
            exfalso
            simp only [updateOk, hlab] at hu
            rw [hlab] at hval
            exact absurd hval.1 (by simpa using hu)
          | obj okvs =>
            exfalso
            simp only [updateOk, hlab] at hu
            rw [hlab] at hval
            exact absurd hval.1 (by simpa using hu)
        · have hnval : (¬ pyTruthy (jgetD kvs "label" (Json.str "")) ∨
              ¬ isNumeric (jgetD kvs "value" (Json.num 0))) = True :=
            eq_true (by
              rcases Decidable.not_and_iff_or_not.mp hval with h | h
              · exact Or.inl h
              · exact Or.inr h)
          have hval' : (pyTruthy (jgetD kvs "label" (Json.str "")) ∧
              isNumeric (jgetD kvs "value" (Json.num 0))) = False := eq_false hval
          simp only [applyOneUpdate, validTriple, hcat, hcs', hval', hnval, if_true, if_false]
      · have hcs' : (cs = "core" ∨ cs = "persistent" ∨ cs = "temporal") = False := eq_false hcs
        simp only [applyOneUpdate, validTriple, hcat, hcs', if_false]
    | null => simp [applyOneUpdate, validTriple, hcat]
    | bool b => simp [applyOneUpdate, validTriple, hcat]
    | num n => simp [applyOneUpdate, validTriple, hcat]
    | arr xs => simp [applyOneUpdate, validTriple, hcat]
    | obj o => simp [applyOneUpdate, validTriple, hcat]
  | null => simp [updateOk] at hu
  | bool b => simp [updateOk] at hu
  | num n => simp [updateOk] at hu
  | str s => simp [updateOk] at hu
  | arr xs => simp [updateOk] at hu

theorem foldlM_applyOneUpdate (us : List Json) :
    ∀ states, (∀ u ∈ us, updateOk u = true) →
      us.foldlM applyOneUpdate states = Except.ok (specApplyAll states us) := by
  induction us with
  | nil => intro states _; rfl
  | cons u rest ih =>
    intro states h
    have hu := h u (List.mem_cons_self u rest)
    have hrest : ∀ x ∈ rest, updateOk x = true := fun x hx => h x (List.mem_cons_of_mem _ hx)
    rw [List.foldlM_cons, applyOneUpdate_ok states u hu]
    simp only [exceptOkBind, specApplyAll, List.filterMap_cons]
    cases hvt : validTriple u with
    | none =>
      simpa [specApplyAll, hvt] using ih states hrest
    | some t =>
      simpa [specApplyAll, hvt] using ih (specApplyUpdate states t.1 t.2.1 t.2.2) hrest

theorem processChange_ok (ch : Json) (states : States) (hch : changeOk ch = true) :
    processChange states ch =
      Except.ok (specApplyAll states (normChanges [ch])) := by
  cases ch with
  | obj kvs =>
    simp only [processChange, pyInContains, exceptOkBind, normChanges, List.flatMap_cons,
      List.flatMap_nil, List.append_nil]
    by_cases hupd : kvs.any (fun kv => kv.1 = "updates")
    · rw [if_pos (by simpa using hupd)]
      simp only [changeOk] at hch
      rw [if_pos (by simpa using hupd)] at hch
      cases hval : jgetD kvs "updates" (Json.arr [Json.obj kvs]) with
      | arr xs =>
        rw [hval] at hch
        simp only [hval, pyIterate, exceptOkBind]
        rw [if_pos hupd]
        exact foldlM_applyOneUpdate xs states (by simpa [List.all_eq_true] using hch)
      | null => rw [hval] at hch; simp at hch
      | bool b => rw [hval] at hch; simp at hch
      | num n => rw [hval] at hch; simp at hch
      | str s => rw [hval] at hch; simp at hch
      | obj o => rw [hval] at hch; simp at hch
    · rw [if_neg (by simpa using hupd)]
      simp only [changeOk] at hch
      rw [if_neg (by simpa using hupd)] at hch
      simp only [pyIterate, exceptOkBind]
      rw [if_neg (by simpa using hupd)]
      have := foldlM_applyOneUpdate [Json.obj kvs] states (by simpa using hch)
      simpa using this
  | null => simp [changeOk] at hch
  | bool b => simp [changeOk] at hch
  | num n => simp [changeOk] at hch
  | str s => simp [changeOk] at hch
  | arr xs => simp [changeOk] at hch

theorem specApplyAll_append (states : States) (us vs : List Json) :
    specApplyAll states (us ++ vs) = specApplyAll (specApplyAll states us) vs := by
  simp [specApplyAll, List.filterMap_append, List.foldl_append]

theorem foldlM_processChange (changes : List Json) :
    ∀ states, (∀ ch ∈ changes, changeOk ch = true) →
      changes.foldlM processChange states =
        Except.ok (specApplyAll states (normChanges changes)) := by
  induction changes with
  | nil => intro states _; rfl
  | cons ch rest ih =>
    intro states h
    have hch := h ch (List.mem_cons_self ch rest)
    have hrest : ∀ x ∈ rest, changeOk x = true := fun x hx => h x (List.mem_cons_of_mem _ hx)
    rw [List.foldlM_cons, processChange_ok ch states hch]
    simp only [exceptOkBind]
    rw [ih (specApplyAll states (normChanges [ch])) hrest]
    have : normChanges (ch :: rest) = normChanges [ch] ++ normChanges rest := by
      simp [normChanges]
    rw [this, specApplyAll_append]

theorem applyStateChangesData_ok (kvs : List (String × Json)) (changes : List Json)
    (states : States)
    (hget : jgetD kvs "state_changes" (Json.arr []) = Json.arr changes)
    (hok : ∀ ch ∈ changes, changeOk ch = true) :
    applyStateChangesData states (Json.obj kvs) =
      Except.ok (specApplyAll states (normChanges changes), !changes.isEmpty) := by
  simp only [applyStateChangesData]
  by_cases hdata : pyTruthy (Json.obj kvs)
  · rw [if_neg (by simpa using hdata)]
    rw [hget]
    by_cases hch : pyTruthy (Json.arr changes)
    · rw [if_neg (by simpa using hch)]
      simp only [pyIterate, exceptOkBind]
      rw [foldlM_processChange changes states hok]
      simp only [exceptOkBind]
      have : changes.isEmpty = false := by
        simpa [pyTruthy] using hch
      simp [this]
    · rw [if_pos (by simpa using hch)]
      have hempty : changes = [] := by
        simp [pyTruthy] at hch
        exact hch
      subst hempty
      simp [specApplyAll, normChanges]
  · rw [if_pos (by simpa using hdata)]
    have hkvs : kvs = [] := by
      simp [pyTruthy] at hdata
      exact hdata
    subst hkvs
    have : changes = [] := by
      simp [jgetD, List.lookup] at hget
      exact hget
    subst this
    simp [specApplyAll, normChanges]

/-! ## Claim C5 -/

/-- C5: for every parsed extractor payload whose `state_changes` items are
well-shaped JSON objects (flat or `updates`-wrapped), each item with a valid
category, non-empty label and numeric value is applied — the value is coerced
to an integer, clamped to the category ceiling when one exists, and either
overwrites the first case-insensitively matching state or is appended — while
items failing the validation are skipped; the normalize-validate-fold
`specApplyAll` captures this exactly.  In particular
`{"state_changes":[{"category":"persistent","label":"Loyal","value":99}]}` on a
character with no states yields a persistent state of value 20. -/
theorem extractor_applies_updates (loads : String → Option Json) (c : Character) (text : String)
    (kvs : List (String × Json)) (changes : List Json)
    (hparse : parse_json_output loads text = some (Json.obj kvs))
    (hget : jgetD kvs "state_changes" (Json.arr []) = Json.arr changes)
    (hok : ∀ ch ∈ changes, changeOk ch = true) :
    apply_character_extractor loads c text =
        Except.ok ({ c with states := specApplyAll c.states (normChanges changes) },
          !changes.isEmpty)
      ∧ apply_character_extractor
          (fun _ => some (Json.obj [("state_changes", Json.arr
            [Json.obj [("category", Json.str "persistent"), ("label", Json.str "Loyal"),
              ("value", Json.num 99)]])]))
          ⟨"Nell", "nell", [], 50, ⟨[], [], []⟩, false⟩ "out"
        = Except.ok (⟨"Nell", "nell", [], 50, ⟨[], [⟨"Loyal", 20⟩], []⟩, false⟩, true) := by
  constructor
  · simp only [apply_character_extractor, hparse]
    rw [applyStateChangesData_ok kvs changes c.states hget hok]
    rfl
  · rfl

/-- C5 witness: the Loyal/99 payload at a concrete character, hypotheses
discharged by evaluation. -/
theorem extractor_applies_updates_witness :
    (parse_json_output
        (fun _ => some (Json.obj [("state_changes", Json.arr
          [Json.obj [("category", Json.str "persistent"), ("label", Json.str "Loyal"),
            ("value", Json.num 99)]])])) "out"
      = some (Json.obj [("state_changes", Json.arr
          [Json.obj [("category", Json.str "persistent"), ("label", Json.str "Loyal"),
            ("value", Json.num 99)]])])
      ∧ jgetD [("state_changes", Json.arr
          [Json.obj [("category", Json.str "persistent"), ("label", Json.str "Loyal"),
            ("value", Json.num 99)]])] "state_changes" (Json.arr [])
        = Json.arr [Json.obj [("category", Json.str "persistent"),
            ("label", Json.str "Loyal"), ("value", Json.num 99)]]
      ∧ (∀ ch ∈ [Json.obj [("category", Json.str "persistent"), ("label", Json.str "Loyal"),
          ("value", Json.num 99)]], changeOk ch = true))
    ∧ apply_character_extractor
        (fun _ => some (Json.obj [("state_changes", Json.arr
          [Json.obj [("category", Json.str "persistent"), ("label", Json.str "Loyal"),
            ("value", Json.num 99)]])]))
        ⟨"Nell", "nell", [], 50, ⟨[], [], []⟩, false⟩ "out"
      = Except.ok ({ (⟨"Nell", "nell", [], 50, ⟨[], [], []⟩, false⟩ : Character) with
          states := specApplyAll (⟨[], [], []⟩ : States)
            (normChanges [Json.obj [("category", Json.str "persistent"),
              ("label", Json.str "Loyal"), ("value", Json.num 99)]]) },
        !([Json.obj [("category", Json.str "persistent"), ("label", Json.str "Loyal"),
            ("value", Json.num 99)]].isEmpty)) :=
  ⟨⟨rfl, rfl, by decide⟩,
    (extractor_applies_updates
      (fun _ => some (Json.obj [("state_changes", Json.arr
        [Json.obj [("category", Json.str "persistent"), ("label", Json.str "Loyal"),
          ("value", Json.num 99)]])]))
      ⟨"Nell", "nell", [], 50, ⟨[], [], []⟩, false⟩ "out" _ _ rfl rfl (by decide)).1⟩

/-! ## Claim C6 -/

/-- C6, counterexample: a `state_changes` list containing a non-object item
(here the number 5) raises an uncaught exception in
`apply_character_extractor` (Python: `"updates" in 5` → `TypeError`) instead of
being skipped — and the valid second item is never applied. -/
theorem extractor_nonobject_item_raises :
    apply_character_extractor
        (fun _ => some (Json.obj [("state_changes", Json.arr [Json.num 5,
          Json.obj [("category", Json.str "core"), ("label", Json.str "Brave"),
            ("value", Json.num 9)]])]))
        ⟨"Gareth", "gareth", [], 50, ⟨[], [], []⟩, false⟩ "out"
      = Except.error "TypeError: argument is not iterable" := rfl

/-- C6, amended: if JSON decoding fails (or, per conjunct 4, yields a
non-object for every input), the three appliers apply nothing, leave their
data and the saved-flag unchanged, and raise no exception; and payloads whose
`state_changes` items are JSON objects (flat or `updates`-wrapped) are
processed to completion with invalid items skipped.  (A non-object item,
by the counterexample, instead raises an uncaught TypeError/AttributeError in
the character/persona appliers; only the orchestrator's lorebook phase catches
exceptions.) -/
theorem extractor_error_handling :
    (∀ (loads : String → Option Json) (text : String) (c : Character),
        parse_json_output loads text = none →
          apply_character_extractor loads c text = Except.ok (c, false))
      ∧ (∀ (loads : String → Option Json) (text : String) (p : Persona)
            (locals : List Persona),
          parse_json_output loads text = none →
            apply_persona_extractor loads p text locals = Except.ok (p, locals, false))
      ∧ (∀ (loads : String → Option Json) (text : String) (lb : List LoreEntry),
          parse_json_output loads text = none →
            apply_lorebook_extractor loads lb text = Except.ok (lb, false))
      ∧ (∀ (loads : String → Option Json) (text : String),
          (∀ s kvs, loads s ≠ some (Json.obj kvs)) → parse_json_output loads text = none)
      ∧ (∀ (loads : String → Option Json) (text : String) (c : Character)
            (kvs : List (String × Json)) (changes : List Json),
          parse_json_output loads text = some (Json.obj kvs) →
          jgetD kvs "state_changes" (Json.arr []) = Json.arr changes →
          (∀ ch ∈ changes, changeOk ch = true) →
          ∃ r, apply_character_extractor loads c text = Except.ok r) := by
  refine ⟨?_, ?_, ?_, ?_, ?_⟩
  · intro loads text c h
    simp only [apply_character_extractor, h]
  · intro loads text p locals h
    simp only [apply_persona_extractor, h]
  · intro loads text lb h
    simp only [apply_lorebook_extractor, h]
  · intro loads text h
    simp only [parse_json_output]
    cases hl : loads (if startsWithList "```".data (pyStrip text).data then
        (⟨joinNL ((((splitNL (pyStrip text).data)).drop 1).filter
          (fun l => ¬ startsWithList "```".data (stripList l)))⟩ : String)
      else pyStrip text) with
    | none => rfl
    | some j =>
      cases j with
      | obj kvs => exact absurd hl (h _ kvs)
      | null => rfl
      | bool b => rfl
      | num n => rfl
      | str s => rfl
      | arr xs => rfl
  · intro loads text c kvs changes hparse hget hok
    refine ⟨({ c with states := specApplyAll c.states (normChanges changes) },
      !changes.isEmpty), ?_⟩
    simp only [apply_character_extractor, hparse]
    rw [applyStateChangesData_ok kvs changes c.states hget hok]
    rfl

/-- C6 witness: non-JSON extractor output applies nothing and raises nothing. -/
theorem extractor_error_handling_witness :
    parse_json_output (fun _ => none) "not json at all" = none
      ∧ apply_character_extractor (fun _ => none)
          ⟨"Gareth", "gareth", [], 50, ⟨[], [], []⟩, false⟩ "not json at all"
        = Except.ok (⟨"Gareth", "gareth", [], 50, ⟨[], [], []⟩, false⟩, false) :=
  ⟨rfl, extractor_error_handling.1 (fun _ => none) "not json at all"
    ⟨"Gareth", "gareth", [], 50, ⟨[], [], []⟩, false⟩ rfl⟩

/-! ## Lemmas about the turn orchestrator -/

theorem list_set_getD_self {α : Type} (l : List α) :
    ∀ (i : Nat) (d : α), l.set i ((l.get? i).getD d) = l := by
  induction l with
  | nil => intro i d; rfl
  | cons a rest ih =>
    intro i d
    cases i with
    | zero => rfl
    | succ j =>
      have := ih j d
      rw [List.get?_eq_getElem?] at this
      simp [List.set_cons_succ, this]

theorem roundCharExtractor_trace (env : PipeEnv) (i : Nat) (char : Character)
    (st : PipeSt) (calls : List LlmCall) :
    ((roundCharExtractor env i char st calls).1).trace = st.trace := by
  simp only [roundCharExtractor]
  repeat' split
  all_goals rfl

theorem roundPersonaExtractor_trace (env : PipeEnv) (rp : String)
    (st : PipeSt) (calls : List LlmCall) :
    ((roundPersonaExtractor env rp st calls).1).trace = st.trace := by
  simp only [roundPersonaExtractor]
  repeat' split
  all_goals rfl

theorem roundTailAux (env : PipeEnv) (rest : List Nat) (rp : String) (parts : List String)
    (tr0 : PipeTrace)
    (ihh : ∀ st c p a, ((roundCharsGo env rest st c p a).1).trace = st.trace)
    (R : PipeSt × List LlmCall × Bool) (hR : R.1.trace = tr0) :
    ((if ¬ R.2.2 then roundCharsGo env rest R.1 R.2.1 parts true
      else if R.1.err.isSome then (R.1, R.2.1, parts, true)
      else
        if (roundPersonaExtractor env rp R.1 R.2.1).1.err.isSome then
          ((roundPersonaExtractor env rp R.1 R.2.1).1,
            (roundPersonaExtractor env rp R.1 R.2.1).2, parts, true)
        else
          roundCharsGo env rest (roundPersonaExtractor env rp R.1 R.2.1).1
            (roundPersonaExtractor env rp R.1 R.2.1).2 parts true).1).trace = tr0 := by
  by_cases hc : ¬ R.2.2
  · rw [if_pos (by simpa using hc)]
    rw [ihh]
    exact hR
  · rw [if_neg (by simpa using hc)]
    by_cases he : R.1.err.isSome
    · rw [if_pos he]
      exact hR
    · rw [if_neg he]
      have hp : ((roundPersonaExtractor env rp R.1 R.2.1).1).trace = R.1.trace :=
        roundPersonaExtractor_trace env rp R.1 R.2.1
      by_cases he2 : ((roundPersonaExtractor env rp R.1 R.2.1).1).err.isSome
      · rw [if_pos he2]
        exact hp.trans hR
      · rw [if_neg he2]
        rw [ihh]
        exact hp.trans hR

theorem roundCharsGo_trace (env : PipeEnv) :
    ∀ (idx : List Nat) (st : PipeSt) (calls : List LlmCall) (parts : List String)
      (acted : Bool), ((roundCharsGo env idx st calls parts acted).1).trace = st.trace := by
  intro idx
  induction idx with
  | nil => intro st calls parts acted; rfl
  | cons i rest ih =>
    intro st calls parts acted
    simp only [roundCharsGo]
    by_cases h1 : st.err.isSome
    · rw [if_pos h1]
    · rw [if_neg h1]
      by_cases h2 : rolePrompt env.story_roles "character_intention" = ""
      · rw [if_pos h2]
        exact ih st calls parts acted
      · rw [if_neg h2]
        by_cases h3 : ¬ env.o.ren st.renK
        · rw [if_pos (by simpa using h3)]
          exact ih _ calls parts acted
        · rw [if_neg (by simpa using h3)]
          by_cases h4 : env.narrator_tpl ≠ ""
          · rw [if_pos h4]
            by_cases h5 : ¬ env.o.ren (st.renK + 1)
            · rw [if_pos (by simpa using h5)]
              exact ih _ _ parts acted
            · rw [if_neg (by simpa using h5)]
              exact roundTailAux env rest _ _ st.trace ih _
                (roundCharExtractor_trace env i _ _ _)
          · rw [if_neg h4]
            exact ih _ _ parts acted

theorem roundsGoAfterRound_le (recurse : PipeSt → PipeSt) (m : Nat)
    (hrec : ∀ s : PipeSt, (recurse s).trace.rounds.length ≤ s.trace.rounds.length + m)
    (st : PipeSt) (calls : List LlmCall) (parts : List String) (acted : Bool) :
    (roundsGoAfterRound recurse st calls parts acted).trace.rounds.length ≤
      st.trace.rounds.length + 1 + m := by
  simp only [roundsGoAfterRound]
  repeat' split
  all_goals try (refine le_trans (hrec _) ?_)
  all_goals simp

theorem roundsGo_rounds_le (env : PipeEnv) :
    ∀ (n : Nat) (st : PipeSt),
      (roundsGo env n st).trace.rounds.length ≤ st.trace.rounds.length + n := by
  intro n
  induction n with
  | zero => intro st; simp [roundsGo]
  | succ m ih =>
    intro st
    simp only [roundsGo]
    by_cases h1 : st.err.isSome
    · rw [if_pos h1]; omega
    · rw [if_neg h1]
      by_cases h2 : st.characters.isEmpty = true ∨ env.intention_conn.isNone = true
      · rw [if_pos (by simpa using h2)]; omega
      · rw [if_neg (by simpa using h2)]
        by_cases h3 : (activateIdxGo (pyLower (joinDD st.narration_parts ++ " " ++
            env.player_message)) env.o.rng st.characters.enum st.rngK).1.isEmpty
        · rw [if_pos h3]; simp
        · rw [if_neg h3]
          have hC : ((roundCharsGo env
              (activateIdxGo (pyLower (joinDD st.narration_parts ++ " " ++
                env.player_message)) env.o.rng st.characters.enum st.rngK).1
              { st with rngK := (activateIdxGo (pyLower (joinDD st.narration_parts ++ " " ++
                env.player_message)) env.o.rng st.characters.enum st.rngK).2 }
              [] [] false).1).trace = st.trace :=
            roundCharsGo_trace env _ _ _ _ _
          refine le_trans (roundsGoAfterRound_le (roundsGo env m) m ih _ _ _ _) ?_
          rw [hC]
          omega

theorem phase1Narrator_rounds (env : PipeEnv) (st : PipeSt) :
    (phase1Narrator env st).trace.rounds = st.trace.rounds := by
  simp only [phase1Narrator]
  repeat' split
  all_goals rfl

theorem phase2Go_rounds (env : PipeEnv) (tpl nsf : String) :
    ∀ (todo done : List Character) (st : PipeSt),
      (phase2Go env tpl nsf done todo st).trace.rounds = st.trace.rounds := by
  intro todo
  induction todo with
  | nil => intro done st; rfl
  | cons c rest ih =>
    intro done st
    simp only [phase2Go]
    repeat' split
    all_goals first
      | rfl
      | (apply ih)

theorem phase2Block_rounds (env : PipeEnv) (st : PipeSt) :
    (phase2Block env st).trace.rounds = st.trace.rounds := by
  simp only [phase2Block]
  repeat' split
  all_goals first
    | rfl
    | (apply phase2Go_rounds)

theorem phase3Persona_rounds (env : PipeEnv) (st : PipeSt) :
    (phase3Persona env st).trace.rounds = st.trace.rounds := by
  simp only [phase3Persona]
  repeat' split
  all_goals rfl

theorem lorebookPhase_rounds (env : PipeEnv) (config : Config) (st : PipeSt) :
    (lorebookPhase env config st).trace.rounds = st.trace.rounds := by
  simp only [lorebookPhase]
  repeat' split
  all_goals rfl

theorem tickPhase_trace (st : PipeSt) : (tickPhase st).trace = st.trace := by
  simp only [tickPhase]
  repeat' split
  all_goals rfl

theorem apply_character_extractor_none (loads : String → Option Json) (c : Character)
    (text : String) (h : ∀ s, loads s = none) :
    apply_character_extractor loads c text = Except.ok (c, false) := by
  simp only [apply_character_extractor, parse_json_output, h]

theorem apply_lorebook_extractor_none (loads : String → Option Json) (lb : List LoreEntry)
    (text : String) (h : ∀ s, loads s = none) :
    apply_lorebook_extractor loads lb text = Except.ok (lb, false) := by
  simp only [apply_lorebook_extractor, parse_json_output, h]

theorem flatMap_const_replicate {α β : Type} (l : List α) (c : List β) :
    l.flatMap (fun _ => c) = (List.replicate l.length c).join := by
  induction l with
  | nil => rfl
  | cons a rest ih => simp [List.flatMap_cons, List.replicate_succ, ih]

theorem activateIdxGo_all (text : String) (rng : Nat → Int) (hrng : ∀ k, rng k ≤ 99) :
    ∀ (l : List (Nat × Character)) (k : Nat),
      (∀ ic ∈ l, ic.2.chattiness = 100) →
      (activateIdxGo text rng l k).1 = l.map Prod.fst := by
  intro l
  induction l with
  | nil => intro k _; rfl
  | cons ic rest ih =>
    intro k h
    obtain ⟨i, c⟩ := ic
    have hc : c.chattiness = 100 := h (i, c) (List.mem_cons_self _ _)
    have hrest : ∀ x ∈ rest, x.2.chattiness = 100 := fun x hx => h x (List.mem_cons_of_mem _ hx)
    simp only [activateIdxGo]
    by_cases hm : nameMatches c text
    · rw [if_pos hm]
      simp [ih k hrest]
    · rw [if_neg hm]
      rw [if_pos (by rw [hc]; have := hrng k; omega)]
      simp [ih (k + 1) hrest]

theorem roundCharExtractor_scenario (env : PipeEnv)
    (hconn : env.extractor_conn.isSome)
    (htpl : rolePrompt env.story_roles "extractor" ≠ "")
    (hren : ∀ k, env.o.ren k = true)
    (hloads : ∀ s, env.o.loads s = none) :
    ∀ (i : Nat) (char : Character) (st : PipeSt) (calls : List LlmCall),
      roundCharExtractor env i char st calls =
        ({ st with renK := st.renK + 1, genK := st.genK + 1, characters := setChar st.characters i char },
          calls ++ [LlmCall.extractorCall], true) := by
  intro i char st calls
  simp only [roundCharExtractor]
  rw [if_pos hconn, if_pos htpl, if_neg (by simp [hren st.renK])]
  rw [apply_character_extractor_none env.o.loads char (env.o.gen st.genK) hloads]
  simp

theorem phase3Persona_none (env : PipeEnv) (st : PipeSt)
    (h : st.active_persona = none) : phase3Persona env st = st := by
  simp only [phase3Persona, h]
  split
  · rfl
  · rfl

theorem phase2Go_noloads (env : PipeEnv) (tpl nsf : String)
    (hloads : ∀ s, env.o.loads s = none) :
    ∀ (todo done : List Character) (st : PipeSt), st.err = none →
      ∃ st', phase2Go env tpl nsf done todo st = st'
        ∧ st'.characters = done ++ todo
        ∧ st'.err = none
        ∧ st'.active_persona = st.active_persona
        ∧ st'.narration_parts = st.narration_parts
        ∧ st'.store = st.store
        ∧ st'.trace.lorebook = st.trace.lorebook := by
  intro todo
  induction todo with
  | nil =>
    intro done st herr
    exact ⟨{ st with characters := done }, rfl, by simp, herr, rfl, rfl, rfl, rfl⟩
  | cons c rest ih =>
    intro done st herr
    simp only [phase2Go]
    rw [if_neg (by simp [herr])]
    by_cases hm : (pyLower c.name :: c.nicknames.map pyLower).any (fun n => pyInStr n nsf)
    · rw [if_pos hm]
      by_cases hr : env.o.ren st.renK
      · rw [if_pos hr]
        rw [apply_character_extractor_none env.o.loads c (env.o.gen st.genK) hloads]
        obtain ⟨st', heq, hchars, herr', hpers, hparts, hstore, hlb⟩ :=
          ih (done ++ [c]) { st with renK := st.renK + 1, genK := st.genK + 1, trace := { st.trace with phase2 := st.trace.phase2 ++ [LlmCall.extractorCall] } } herr
        refine ⟨st', heq, ?_, herr', hpers, hparts, hstore, hlb⟩
        simpa using hchars
      · rw [if_neg hr]
        obtain ⟨st', heq, hchars, herr', hpers, hparts, hstore, hlb⟩ :=
          ih (done ++ [c]) { st with renK := st.renK + 1 } herr
        refine ⟨st', heq, ?_, herr', hpers, hparts, hstore, hlb⟩
        simpa using hchars
    · rw [if_neg hm]
      obtain ⟨st', heq, hchars, herr', hpers, hparts, hstore, hlb⟩ := ih (done ++ [c]) st herr
      refine ⟨st', heq, ?_, herr', hpers, hparts, hstore, hlb⟩
      simpa using hchars

theorem roundConsAux (env : PipeEnv) (i : Nat) (rest : List Nat)
    (hIH : ∀ (st : PipeSt) (calls : List LlmCall) (parts : List String) (acted : Bool),
      st.err = none → st.active_persona = none →
      ∃ st' parts',
        roundCharsGo env rest st calls parts acted =
          (st', calls ++ rest.flatMap (fun _ => [LlmCall.intentionCall, LlmCall.narratorCall,
            LlmCall.extractorCall]), parts', acted || !rest.isEmpty)
        ∧ st'.err = none ∧ st'.active_persona = none
        ∧ st'.characters = st.characters
        ∧ st'.round_all_narrations = st.round_all_narrations
        ∧ st'.trace = st.trace)
    (st stMid : PipeSt) (calls : List LlmCall) (partsMid : List String) (acted : Bool)
    (hmidErr : stMid.err = none) (hmidPers : stMid.active_persona = none)
    (hchars : stMid.characters = st.characters)
    (hnarrs : stMid.round_all_narrations = st.round_all_narrations)
    (htr : stMid.trace = st.trace) :
    ∃ st' parts',
      roundCharsGo env rest stMid
          (calls ++ [LlmCall.intentionCall] ++ [LlmCall.narratorCall] ++ [LlmCall.extractorCall])
          partsMid true =
        (st', calls ++ (i :: rest).flatMap (fun _ => [LlmCall.intentionCall,
          LlmCall.narratorCall, LlmCall.extractorCall]), parts', acted || !(i :: rest).isEmpty)
      ∧ st'.err = none ∧ st'.active_persona = none
      ∧ st'.characters = st.characters
      ∧ st'.round_all_narrations = st.round_all_narrations
      ∧ st'.trace = st.trace := by
  obtain ⟨st', parts', heq, h1, h2, h3, h4, h5⟩ :=
    hIH stMid (calls ++ [LlmCall.intentionCall] ++ [LlmCall.narratorCall] ++
      [LlmCall.extractorCall]) partsMid true hmidErr hmidPers
  refine ⟨st', parts', ?_, h1, h2, h3.trans hchars, h4.trans hnarrs, h5.trans htr⟩
  rw [heq]
  simp [List.flatMap_cons, List.append_assoc]

theorem roundCharsGo_scenario (env : PipeEnv)
    (hintTpl : rolePrompt env.story_roles "character_intention" ≠ "")
    (hnarrTpl : env.narrator_tpl ≠ "")
    (hconn : env.extractor_conn.isSome)
    (hextTpl : rolePrompt env.story_roles "extractor" ≠ "")
    (hren : ∀ k, env.o.ren k = true)
    (hloads : ∀ s, env.o.loads s = none) :
    ∀ (idx : List Nat) (st : PipeSt) (calls : List LlmCall) (parts : List String) (acted : Bool),
      st.err = none → st.active_persona = none →
      ∃ st' parts',
        roundCharsGo env idx st calls parts acted =
          (st', calls ++ idx.flatMap (fun _ => [LlmCall.intentionCall, LlmCall.narratorCall,
            LlmCall.extractorCall]), parts', acted || !idx.isEmpty)
        ∧ st'.err = none ∧ st'.active_persona = none
        ∧ st'.characters = st.characters
        ∧ st'.round_all_narrations = st.round_all_narrations
        ∧ st'.trace = st.trace := by
  intro idx
  induction idx with
  | nil =>
    intro st calls parts acted herr hpers
    exact ⟨st, parts, by simp [roundCharsGo], herr, hpers, rfl, rfl, rfl⟩
  | cons i rest ih =>
    intro st calls parts acted herr hpers
    simp only [roundCharsGo]
    rw [if_neg (by simp [herr])]
    rw [if_neg hintTpl]
    rw [if_neg (by simp [hren st.renK])]
    rw [if_pos hnarrTpl]
    rw [if_neg (by simp [hren (st.renK + 1)])]
    rw [roundCharExtractor_scenario env hconn hextTpl hren hloads]
    simp only
    rw [if_neg (by simp : ¬ ¬ True)]
    rw [if_neg (by simp [herr])]
    simp only [roundPersonaExtractor, hpers]
    rw [if_neg (by simp [herr])]
    exact roundConsAux env i rest ih st _ calls _ acted herr rfl
      (list_set_getD_self st.characters i _) rfl rfl

theorem mem_enumFrom_snd {α : Type} :
    ∀ (l : List α) (n : Nat) (ic : Nat × α), ic ∈ l.enumFrom n → ic.2 ∈ l := by
  intro l
  induction l with
  | nil => intro n ic h; simp [List.enumFrom] at h
  | cons a rest ih =>
    intro n ic h
    simp only [List.enumFrom] at h
    rcases List.mem_cons.mp h with h1 | h2
    · rw [h1]; exact List.mem_cons_self _ _
    · exact List.mem_cons_of_mem _ (ih (n + 1) ic h2)

theorem roundsMidAux (env : PipeEnv) (m : Nat)
    (hIH : ∀ (s : PipeSt), s.err = none → s.active_persona = none →
      s.characters.isEmpty = false → (∀ c ∈ s.characters, c.chattiness = 100) →
      ∃ st' ext, roundsGo env m s = st'
        ∧ st'.err = none ∧ st'.active_persona = none
        ∧ st'.characters = s.characters
        ∧ st'.round_all_narrations = s.round_all_narrations ++ ext
        ∧ st'.trace.rounds = s.trace.rounds ++ List.replicate m
            (s.characters.flatMap (fun _ => [LlmCall.intentionCall, LlmCall.narratorCall,
              LlmCall.extractorCall]))
        ∧ st'.trace.phase1 = s.trace.phase1 ∧ st'.trace.phase2 = s.trace.phase2
        ∧ st'.trace.phase3 = s.trace.phase3 ∧ st'.trace.lorebook = s.trace.lorebook)
    (st stMid : PipeSt) (e0 : List String)
    (hmErr : stMid.err = none) (hmPers : stMid.active_persona = none)
    (hmChars : stMid.characters = st.characters)
    (hmNarr : stMid.round_all_narrations = st.round_all_narrations ++ e0)
    (hmRounds : stMid.trace.rounds = st.trace.rounds ++
      [st.characters.flatMap (fun _ => [LlmCall.intentionCall, LlmCall.narratorCall,
        LlmCall.extractorCall])])
    (hmP1 : stMid.trace.phase1 = st.trace.phase1)
    (hmP2 : stMid.trace.phase2 = st.trace.phase2)
    (hmP3 : stMid.trace.phase3 = st.trace.phase3)
    (hmLb : stMid.trace.lorebook = st.trace.lorebook)
    (hne : st.characters.isEmpty = false)
    (hchat : ∀ c ∈ st.characters, c.chattiness = 100) :
    ∃ st' ext, roundsGo env m stMid = st'
      ∧ st'.err = none ∧ st'.active_persona = none
      ∧ st'.characters = st.characters
      ∧ st'.round_all_narrations = st.round_all_narrations ++ ext
      ∧ st'.trace.rounds = st.trace.rounds ++ List.replicate (m + 1)
          (st.characters.flatMap (fun _ => [LlmCall.intentionCall, LlmCall.narratorCall,
            LlmCall.extractorCall]))
      ∧ st'.trace.phase1 = st.trace.phase1 ∧ st'.trace.phase2 = st.trace.phase2
      ∧ st'.trace.phase3 = st.trace.phase3 ∧ st'.trace.lorebook = st.trace.lorebook := by
  obtain ⟨st', ext, heq, h1, h2, h3, h4, h5, h6, h7, h8, h9⟩ :=
    hIH stMid hmErr hmPers (by rw [hmChars]; exact hne) (by rw [hmChars]; exact hchat)
  refine ⟨st', e0 ++ ext, heq, h1, h2, h3.trans hmChars, ?_, ?_, h6.trans hmP1,
    h7.trans hmP2, h8.trans hmP3, h9.trans hmLb⟩
  · rw [h4, hmNarr, List.append_assoc]
  · rw [h5, hmRounds, hmChars]
    simp [List.append_assoc, List.replicate_succ]

theorem roundsGo_scenario (env : PipeEnv)
    (hintConn : env.intention_conn.isSome)
    (hintTpl : rolePrompt env.story_roles "character_intention" ≠ "")
    (hnarrTpl : env.narrator_tpl ≠ "")
    (hconn : env.extractor_conn.isSome)
    (hextTpl : rolePrompt env.story_roles "extractor" ≠ "")
    (hren : ∀ k, env.o.ren k = true)
    (hloads : ∀ s, env.o.loads s = none)
    (hrng : ∀ k, env.o.rng k ≤ 99) :
    ∀ (n : Nat) (st : PipeSt),
      st.err = none → st.active_persona = none →
      st.characters.isEmpty = false →
      (∀ c ∈ st.characters, c.chattiness = 100) →
      ∃ st' ext, roundsGo env n st = st'
        ∧ st'.err = none ∧ st'.active_persona = none
        ∧ st'.characters = st.characters
        ∧ st'.round_all_narrations = st.round_all_narrations ++ ext
        ∧ st'.trace.rounds = st.trace.rounds ++ List.replicate n
            (st.characters.flatMap (fun _ => [LlmCall.intentionCall, LlmCall.narratorCall,
              LlmCall.extractorCall]))
        ∧ st'.trace.phase1 = st.trace.phase1 ∧ st'.trace.phase2 = st.trace.phase2
        ∧ st'.trace.phase3 = st.trace.phase3 ∧ st'.trace.lorebook = st.trace.lorebook := by
  intro n
  induction n with
  | zero =>
    intro st herr hpers hne hchat
    exact ⟨st, [], rfl, herr, hpers, rfl, by simp, by simp, rfl, rfl, rfl, rfl⟩
  | succ m ih =>
    intro st herr hpers hne hchat
    simp only [roundsGo]
    rw [if_neg (by simp [herr])]
    obtain ⟨ic, hic⟩ := Option.isSome_iff_exists.mp hintConn
    rw [if_neg (by simp [hne, hic])]
    have hact : (activateIdxGo (pyLower (joinDD st.narration_parts ++ " " ++
        env.player_message)) env.o.rng st.characters.enum st.rngK).1 =
        st.characters.enum.map Prod.fst :=
      activateIdxGo_all _ env.o.rng hrng _ _
        (fun ic2 hic2 => hchat ic2.2 (mem_enumFrom_snd st.characters 0 ic2 hic2))
    have hneact : ((activateIdxGo (pyLower (joinDD st.narration_parts ++ " " ++
        env.player_message)) env.o.rng st.characters.enum st.rngK).1).isEmpty = false := by
      rw [hact]
      cases hcs : st.characters with
      | nil => rw [hcs] at hne; simp at hne
      | cons a l => simp
    rw [if_neg (by simp [hneact])]
    obtain ⟨stR, partsR, heqC, hRerr, hRpers, hRchars, hRnarr, hRtrace⟩ :=
      roundCharsGo_scenario env hintTpl hnarrTpl hconn hextTpl hren hloads
        ((activateIdxGo (pyLower (joinDD st.narration_parts ++ " " ++
          env.player_message)) env.o.rng st.characters.enum st.rngK).1)
        { st with rngK := (activateIdxGo (pyLower (joinDD st.narration_parts ++ " " ++
          env.player_message)) env.o.rng st.characters.enum st.rngK).2 }
        [] [] false herr hpers
    have hcalls : ((activateIdxGo (pyLower (joinDD st.narration_parts ++ " " ++
        env.player_message)) env.o.rng st.characters.enum st.rngK).1).flatMap
          (fun _ => [LlmCall.intentionCall, LlmCall.narratorCall, LlmCall.extractorCall]) =
        st.characters.flatMap
          (fun _ => [LlmCall.intentionCall, LlmCall.narratorCall, LlmCall.extractorCall]) := by
      rw [flatMap_const_replicate, flatMap_const_replicate, hact]
      simp
    rw [hneact] at heqC
    simp only [Bool.not_false, Bool.or_true, List.nil_append] at heqC
    rw [heqC]
    simp only [roundsGoAfterRound]
    have hnc : ¬ (stR.err.isSome = true) := by simp [hRerr]
    by_cases hp : partsR.isEmpty = true
    · have hip : ¬ (¬ partsR.isEmpty = true) := by simp [hp]
      rw [if_neg hip]
      dsimp only
      rw [if_neg hnc]
      rw [if_neg (by simp)]
      exact roundsMidAux env m ih st _ [] hRerr hRpers hRchars
        (by simp [hRnarr]) (by simp [hRtrace, hcalls]) (by simp [hRtrace])
        (by simp [hRtrace]) (by simp [hRtrace]) (by simp [hRtrace]) hne hchat
    · have hip : ¬ partsR.isEmpty = true := hp
      rw [if_pos hip]
      dsimp only
      rw [if_neg hnc]
      rw [if_neg (by simp)]
      exact roundsMidAux env m ih st _ [joinDD partsR] hRerr hRpers hRchars
        (by simp [hRnarr]) (by simp [hRtrace, hcalls]) (by simp [hRtrace])
        (by simp [hRtrace]) (by simp [hRtrace]) (by simp [hRtrace]) hne hchat

theorem phase1Narrator_ren (env : PipeEnv) (st : PipeSt) (hren : env.o.ren st.renK = true) :
    (phase1Narrator env st).err = st.err
    ∧ (phase1Narrator env st).active_persona = st.active_persona
    ∧ (phase1Narrator env st).characters = st.characters
    ∧ (phase1Narrator env st).trace.lorebook = st.trace.lorebook := by
  simp only [phase1Narrator]
  by_cases h : env.narrator_tpl ≠ ""
  · rw [if_pos h, if_pos hren]
    exact ⟨rfl, rfl, rfl, rfl⟩
  · rw [if_neg h]
    exact ⟨rfl, rfl, rfl, rfl⟩

theorem phase2Block_noloads (env : PipeEnv) (st : PipeSt)
    (hloads : ∀ s, env.o.loads s = none) (herr : st.err = none) :
    ∃ st', phase2Block env st = st'
      ∧ st'.characters = st.characters ∧ st'.err = none
      ∧ st'.active_persona = st.active_persona
      ∧ st'.trace.lorebook = st.trace.lorebook := by
  simp only [phase2Block]
  rw [if_neg (by simp [herr])]
  by_cases h1 : env.extractor_conn.isSome = true ∧ ¬ st.characters.isEmpty = true
  · rw [if_pos h1]
    by_cases h2 : rolePrompt env.story_roles "extractor" ≠ "" ∧ joinDD st.narration_parts ≠ ""
    · rw [if_pos h2]
      obtain ⟨st', heq, hchars, herr', hpers, hparts, hstore, hlb⟩ :=
        phase2Go_noloads env (rolePrompt env.story_roles "extractor")
          (pyLower (joinDD st.narration_parts)) hloads st.characters [] st herr
      exact ⟨st', heq, by simpa using hchars, herr', hpers, hlb⟩
    · rw [if_neg h2]
      exact ⟨st, rfl, rfl, herr, rfl, rfl⟩
  · rw [if_neg h1]
    exact ⟨st, rfl, rfl, herr, rfl, rfl⟩

theorem lorebookPhase_scenario (env : PipeEnv) (config : Config) (st : PipeSt)
    (herr : st.err = none)
    (hconn : (resolve_connection config env.story_roles "lorebook_extractor").isSome = true)
    (htpl : rolePrompt env.story_roles "lorebook_extractor" ≠ "")
    (hne : st.round_all_narrations.isEmpty = false)
    (hren : ∀ k, env.o.ren k = true)
    (hloads : ∀ s, env.o.loads s = none) :
    lorebookPhase env config st =
      { st with
          renK := st.renK + 1,
          genK := st.genK + 1,
          trace := { st.trace with lorebook := st.trace.lorebook ++ [LlmCall.lorebookCall] } } := by
  simp only [lorebookPhase]
  rw [if_neg (by simp [herr])]
  rw [if_pos ⟨hconn, htpl, by simp [hne]⟩]
  rw [if_pos (hren st.renK)]
  rw [apply_lorebook_extractor_none env.o.loads _ _ hloads]
  rfl

theorem pipelineBoundAux (env : PipeEnv) (config : Config) (n : Nat) (st0 : PipeSt) :
    (tickPhase (lorebookPhase env config (roundsGo env n
        { phase3Persona env (phase2Block env (phase1Narrator env st0)) with
          round_all_narrations :=
            [joinDD (phase3Persona env (phase2Block env
              (phase1Narrator env st0))).narration_parts] }))).trace.rounds.length
      ≤ st0.trace.rounds.length + n := by
  rw [tickPhase_trace, lorebookPhase_rounds]
  refine le_trans (roundsGo_rounds_le env n _) ?_
  have h : ({ phase3Persona env (phase2Block env (phase1Narrator env st0)) with
      round_all_narrations :=
        [joinDD (phase3Persona env (phase2Block env
          (phase1Narrator env st0))).narration_parts] } : PipeSt).trace.rounds
      = st0.trace.rounds := by
    show (phase3Persona env (phase2Block env (phase1Narrator env st0))).trace.rounds = _
    rw [phase3Persona_rounds, phase2Block_rounds, phase1Narrator_rounds]
  rw [h]

theorem pipelineScenarioAux (env : PipeEnv) (config : Config) (N : Nat) (st0 : PipeSt)
    (hintConn : env.intention_conn.isSome = true)
    (hintTpl : rolePrompt env.story_roles "character_intention" ≠ "")
    (hnarrTpl : env.narrator_tpl ≠ "")
    (hextConn : env.extractor_conn.isSome = true)
    (hextTpl : rolePrompt env.story_roles "extractor" ≠ "")
    (hlbConn : (resolve_connection config env.story_roles "lorebook_extractor").isSome = true)
    (hlbTpl : rolePrompt env.story_roles "lorebook_extractor" ≠ "")
    (hren : ∀ k, env.o.ren k = true)
    (hloads : ∀ s, env.o.loads s = none)
    (hrng : ∀ k, env.o.rng k ≤ 99)
    (hst0err : st0.err = none) (hst0pers : st0.active_persona = none)
    (hne : st0.characters.isEmpty = false)
    (hchat : ∀ c ∈ st0.characters, c.chattiness = 100) :
    (tickPhase (lorebookPhase env config (roundsGo env N
        { phase3Persona env (phase2Block env (phase1Narrator env st0)) with
          round_all_narrations :=
            [joinDD (phase3Persona env (phase2Block env
              (phase1Narrator env st0))).narration_parts] }))).trace.rounds
        = st0.trace.rounds ++ List.replicate N
            (st0.characters.flatMap (fun _ => [LlmCall.intentionCall, LlmCall.narratorCall,
              LlmCall.extractorCall]))
    ∧ (tickPhase (lorebookPhase env config (roundsGo env N
        { phase3Persona env (phase2Block env (phase1Narrator env st0)) with
          round_all_narrations :=
            [joinDD (phase3Persona env (phase2Block env
              (phase1Narrator env st0))).narration_parts] }))).trace.lorebook
        = st0.trace.lorebook ++ [LlmCall.lorebookCall] := by
  obtain ⟨e1, e2, e3, e5⟩ := phase1Narrator_ren env st0 (hren st0.renK)
  obtain ⟨st2, heq2, h2chars, h2err, h2pers, h2lb⟩ :=
    phase2Block_noloads env (phase1Narrator env st0) hloads (e1.trans hst0err)
  rw [heq2]
  rw [phase3Persona_none env st2 (h2pers.trans (e2.trans hst0pers))]
  have hC2 : st2.characters = st0.characters := h2chars.trans e3
  have hR2 : st2.trace.rounds = st0.trace.rounds := by
    rw [← heq2, phase2Block_rounds, phase1Narrator_rounds]
  have hL2 : st2.trace.lorebook = st0.trace.lorebook := h2lb.trans e5
  obtain ⟨st4, ext, heq4, h4err, h4pers, h4chars, h4narr, h4rounds, h4p1, h4p2, h4p3, h4lb⟩ :=
    roundsGo_scenario env hintConn hintTpl hnarrTpl hextConn hextTpl hren hloads hrng N
      { st2 with round_all_narrations := [joinDD st2.narration_parts] }
      h2err (h2pers.trans (e2.trans hst0pers))
      (by show st2.characters.isEmpty = false; rw [hC2]; exact hne)
      (by show ∀ c ∈ st2.characters, c.chattiness = 100; rw [hC2]; exact hchat)
  rw [heq4]
  rw [lorebookPhase_scenario env config st4 h4err hlbConn hlbTpl
    (by rw [h4narr]; simp) hren hloads]
  constructor
  · rw [tickPhase_trace]
    dsimp only
    rw [h4rounds]
    dsimp only
    rw [hR2, hC2]
  · rw [tickPhase_trace]
    dsimp only
    rw [h4lb]
    dsimp only
    rw [hL2]

/-! ## Claim C9 -/

/-- C9: for every `max_rounds`, roster and model-output sequence, the round
loop of `run_pipeline` runs at most `max_rounds` (default 3) rounds; and in the
always-active scenario (all roles connected with non-empty prompts, every
character at chattiness 100, every render succeeding, every extractor output
undecodable-but-harmless, draws bounded by 99, no active persona), with
`max_rounds = N` the pipeline issues exactly `N` rounds of one intention, one
narrator and one extractor call per character, followed by the single
lorebook-extractor call. -/
theorem pipeline_round_bound :
    (∀ (pm : String) (adv : Adventure) (config : Config) (sr : StoryRoles)
        (chars : List Character) (store : Store) (o : Oracles),
      (run_pipeline pm adv config sr chars store o).trace.rounds.length ≤ sr.max_rounds.getD 3)
    ∧ (∀ (pm : String) (adv : Adventure) (config : Config) (sr : StoryRoles)
        (chars : List Character) (store : Store) (o : Oracles) (N : Nat),
      sr.max_rounds = some N →
      (resolve_connection config sr "narrator").isSome = true →
      (resolve_connection config sr "character_intention").isSome = true →
      (resolve_connection config sr "extractor").isSome = true →
      (resolve_connection config sr "lorebook_extractor").isSome = true →
      rolePrompt sr "character_intention" ≠ "" →
      rolePrompt sr "narrator" ≠ "" →
      rolePrompt sr "extractor" ≠ "" →
      rolePrompt sr "lorebook_extractor" ≠ "" →
      adv.active_persona = "" →
      chars.isEmpty = false →
      (∀ c ∈ chars, c.chattiness = 100) →
      (∀ k, o.ren k = true) →
      (∀ s, o.loads s = none) →
      (∀ k, o.rng k ≤ 99) →
      (run_pipeline pm adv config sr chars store o).trace.rounds =
          List.replicate N (chars.flatMap (fun _ => [LlmCall.intentionCall,
            LlmCall.narratorCall, LlmCall.extractorCall]))
        ∧ (run_pipeline pm adv config sr chars store o).trace.lorebook
            = [LlmCall.lorebookCall]) := by
  constructor
  · intro pm adv config sr chars store o
    cases hres : resolve_connection config sr "narrator" with
    | none =>
      simp only [run_pipeline, hres]
      simp [emptyPipeTrace]
    | some nc =>
      simp only [run_pipeline, hres]
      refine le_trans (pipelineBoundAux _ config _ _) ?_
      simp [emptyPipeTrace]
  · intro pm adv config sr chars store o N hmr hnC hiC heC hlC hiT hnT heT hlT hap
      hne hchat hren hloads hrng
    obtain ⟨nc, hres⟩ := Option.isSome_iff_exists.mp hnC
    simp only [run_pipeline, hres, hmr, Option.getD_some]
    refine pipelineScenarioAux _ config N _ ?_ ?_ ?_ ?_ ?_ ?_ ?_ ?_ ?_ ?_ ?_ ?_ ?_ ?_
    exacts [hiC, hiT, hnT, heC, heT, hlC, hlT, hren, hloads, hrng, rfl,
      by simp [hap], hne, hchat]

/-- C9 witness: a one-character roster at chattiness 100 with all four roles
wired to the connection `c1`, `max_rounds = 2` and trivially succeeding
oracles runs exactly 2 rounds of intention/narrator/extractor calls and one
lorebook call, within the bound. -/
theorem pipeline_round_bound_witness :
    (run_pipeline "go" ⟨"", ""⟩ ⟨[⟨"c1", "", ""⟩], []⟩
        ⟨[("narrator", ⟨"c1", "np"⟩), ("character_intention", ⟨"c1", "ip"⟩),
          ("extractor", ⟨"c1", "ep"⟩), ("lorebook_extractor", ⟨"c1", "lp"⟩)], some 2⟩
        [⟨"Ava", "ava", [], 100, ⟨[], [], []⟩, false⟩] ⟨[], [], [], none, []⟩
        ⟨fun _ => "", fun _ => true, fun _ => none, fun _ => 0⟩).trace.rounds =
      List.replicate 2 [LlmCall.intentionCall, LlmCall.narratorCall, LlmCall.extractorCall]
    ∧ (run_pipeline "go" ⟨"", ""⟩ ⟨[⟨"c1", "", ""⟩], []⟩
        ⟨[("narrator", ⟨"c1", "np"⟩), ("character_intention", ⟨"c1", "ip"⟩),
          ("extractor", ⟨"c1", "ep"⟩), ("lorebook_extractor", ⟨"c1", "lp"⟩)], some 2⟩
        [⟨"Ava", "ava", [], 100, ⟨[], [], []⟩, false⟩] ⟨[], [], [], none, []⟩
        ⟨fun _ => "", fun _ => true, fun _ => none, fun _ => 0⟩).trace.lorebook
        = [LlmCall.lorebookCall]
    ∧ (run_pipeline "go" ⟨"", ""⟩ ⟨[⟨"c1", "", ""⟩], []⟩
        ⟨[("narrator", ⟨"c1", "np"⟩), ("character_intention", ⟨"c1", "ip"⟩),
          ("extractor", ⟨"c1", "ep"⟩), ("lorebook_extractor", ⟨"c1", "lp"⟩)], some 2⟩
        [⟨"Ava", "ava", [], 100, ⟨[], [], []⟩, false⟩] ⟨[], [], [], none, []⟩
        ⟨fun _ => "", fun _ => true, fun _ => none, fun _ => 0⟩).trace.rounds.length ≤ 2 := by
  have h := pipeline_round_bound.2 "go" ⟨"", ""⟩ ⟨[⟨"c1", "", ""⟩], []⟩
    ⟨[("narrator", ⟨"c1", "np"⟩), ("character_intention", ⟨"c1", "ip"⟩),
      ("extractor", ⟨"c1", "ep"⟩), ("lorebook_extractor", ⟨"c1", "lp"⟩)], some 2⟩
    [⟨"Ava", "ava", [], 100, ⟨[], [], []⟩, false⟩] ⟨[], [], [], none, []⟩
    ⟨fun _ => "", fun _ => true, fun _ => none, fun _ => 0⟩ 2
    rfl rfl rfl rfl rfl (by decide) (by decide) (by decide) (by decide) rfl rfl
    (by decide) (fun _ => rfl) (fun _ => rfl) (fun _ => by show (0 : Int) ≤ 99; decide)
  exact ⟨h.1, h.2, pipeline_round_bound.1 "go" ⟨"", ""⟩ ⟨[⟨"c1", "", ""⟩], []⟩
    ⟨[("narrator", ⟨"c1", "np"⟩), ("character_intention", ⟨"c1", "ip"⟩),
      ("extractor", ⟨"c1", "ep"⟩), ("lorebook_extractor", ⟨"c1", "lp"⟩)], some 2⟩
    [⟨"Ava", "ava", [], 100, ⟨[], [], []⟩, false⟩] ⟨[], [], [], none, []⟩
    ⟨fun _ => "", fun _ => true, fun _ => none, fun _ => 0⟩⟩

end RpgTavern
